import Mathlib

/-!
# tellMeY: the descriptor matcher `tY1` and its wrappers

A shallow embedding of `src/index.js`.  JavaScript values are a tree type, a
thrown `TypeAssertionError` is the `error` side of `Except`, and template
literals are string concatenation.
-/

namespace TellMeY

/-! ## Values -/

/-- A JavaScript number: `NaN`, an infinity, or the finite value
`(-1)^negative * mantissa * 2^exponent`. -/
inductive JSNumber where
  | nan
  | infinity (negative : Bool)
  | finite (negative : Bool) (mantissa : Nat) (exponent : Int)
  deriving DecidableEq, Repr

/-- The four function flavours; they differ in their `Symbol.toStringTag`. -/
inductive FunctionKind where
  | plain
  | async
  | generator
  | asyncGenerator
  deriving DecidableEq, Repr

/-- A JavaScript value.  An array is the list of its slots below `length`:
`some x` is an element and `none` a hole, as in `[ , 5]`.  `object cls props`
is any non-callable non-array object: `cls` is what
`Object.prototype.toString` reports for it (`"Object"` for a plain object,
`"Map"` for a `Map`, `"String"` for `new String(..)`, ...) and `props` are the
data properties that `in` and `[]` see, by key. -/
inductive Value where
  | undefined
  | null
  | bool (b : Bool)
  | number (n : JSNumber)
  | string (s : String)
  | bigint (i : Int)
  | symbol (description : String)
  | function (kind : FunctionKind) (name : String)
  | array (items : List (Option Value))
  | object (cls : String) (props : List (String × Value))

/-- A type descriptor, by the shape `tY1` dispatches on: `arr` when
`Array.isArray(type)`, `obj` when `getTag(type) === 'Object'` (the list is
`Object.entries(type)`), and `tag` for a string. -/
inductive Descriptor where
  | tag (name : String)
  | arr (types : List Descriptor)
  | obj (entries : List (String × Descriptor))

/-- The class `TypeAssertionError extends Error`: it carries a message. -/
structure TypeAssertionError where
  message : String
  deriving DecidableEq, Repr

/-- The result of a call that may throw a `TypeAssertionError`. -/
abbrev Result (α : Type) := Except TypeAssertionError α

/-! ## Runtime classification -/

/-- The JavaScript `typeof` operator. -/
def typeOf : Value → String
  | .undefined => "undefined"
  | .null => "object"
  | .bool _ => "boolean"
  | .number _ => "number"
  | .string _ => "string"
  | .bigint _ => "bigint"
  | .symbol _ => "symbol"
  | .function _ _ => "function"
  | .array _ => "object"
  | .object _ _ => "object"

/-- The `Symbol.toStringTag` of a function of the given flavour. -/
def FunctionKind.toStringTag : FunctionKind → String
  | .plain => "Function"
  | .async => "AsyncFunction"
  | .generator => "GeneratorFunction"
  | .asyncGenerator => "AsyncGeneratorFunction"

/-- The function `getTag(val)`: `Object.prototype.toString.call(val).slice(8, -1)`. -/
def getTag : Value → String
  | .undefined => "Undefined"
  | .null => "Null"
  | .bool _ => "Boolean"
  | .number _ => "Number"
  | .string _ => "String"
  | .bigint _ => "BigInt"
  | .symbol _ => "Symbol"
  | .function kind _ => kind.toStringTag
  | .array _ => "Array"
  | .object cls _ => cls

/-- The test `Array.isArray(value)`. -/
def isArray : Value → Bool
  | .array _ => true
  | _ => false

/-- The test `value === null`. -/
def isNull : Value → Bool
  | .null => true
  | _ => false

/-- The test `isNaN(n)` on a number. -/
def JSNumber.isNaN : JSNumber → Bool
  | .nan => true
  | _ => false

/-- The test `Number.isInteger(n)`: finite and without a fractional part. -/
def JSNumber.isInteger : JSNumber → Bool
  | .nan => false
  | .infinity _ => false
  | .finite _ m e => if 0 ≤ e then true else m % 2 ^ (-e).toNat == 0

/-- The global `isNaN(value)`.  `tY1` evaluates it only behind
`typeof value !== 'number' ||`, that is on numbers; on other values (where
JavaScript would coerce first) the model answers `false` and the answer is
never used. -/
def isNaN : Value → Bool
  | .number n => n.isNaN
  | _ => false

/-- The test `Number.isInteger(value)`: `false` on whatever is not a number. -/
def numberIsInteger : Value → Bool
  | .number n => n.isInteger
  | _ => false

/-- The read `value[i]` on an array: `undefined` at a hole and past the end. -/
def getIndex (value : Value) (i : Nat) : Value :=
  match value with
  | .array items => (items.getD i none).getD .undefined
  | _ => .undefined

/-- The test `key in value`, for an object. -/
def hasKey (value : Value) (key : String) : Bool :=
  match value with
  | .object _ props => (props.lookup key).isSome
  | _ => false

/-- The read `value[key]`, for an object: `undefined` when the key is absent. -/
def getKey (value : Value) (key : String) : Value :=
  match value with
  | .object _ props => (props.lookup key).getD .undefined
  | _ => .undefined

/-! ## The registry -/

/-- The constant `nicks`, in source order. -/
def nicks : List (String × String) :=
  [ ("str", "String"), ("numb", "Number"), ("int", "Integer"), ("float", "Float"),
    ("bool", "Boolean"), ("bigint", "BigInt"), ("symb", "Symbol"), ("func", "Function"),
    ("arr", "Array"), ("int8arr", "Int8Array"), ("uint8arr", "Uint8Array"),
    ("uint8clamparr", "Uint8ClampedArray"), ("int16arr", "Int16Array"),
    ("int32arr", "Int32Array"), ("uint32arr", "Uint32Array"), ("f32arr", "Float32Array"),
    ("f64arr", "Float64Array"), ("obj", "Object"), ("regexp", "RegExp"), ("date", "Date"),
    ("map", "Map"), ("set", "Set"), ("weakmap", "WeakMap"), ("weakset", "WeakSet"),
    ("promise", "Promise"), ("err", "Error"), ("arraybuffer", "ArrayBuffer"),
    ("dataview", "DataView"), ("math", "Math") ]

/-- The constant `typeOfMap`. -/
def typeOfMap : List (String × String) :=
  [ ("bool", "boolean"), ("symb", "symbol"), ("func", "function"), ("str", "string") ]

/-- The function `tYpeNicks()`: `Object.keys(nicks)`. -/
def tYpeNicks : List String :=
  nicks.map Prod.fst

/-! ## Messages -/

/-- The template `Expected ${kind}, got ${getTag(value)}`. -/
def expectedMsg (kind : String) (value : Value) : String :=
  "Expected " ++ kind ++ ", got " ++ getTag value

/-- The message of line 101, for an unregistered name. -/
def unknownMsg (name : String) : String :=
  "Unknown assertion: " ++ name ++ " (or, needs to be a string). Run tYpeNicks() for accepted tYpes."

/-- The template `At index ${i}: ${e.message}`. -/
def atIndexMsg (i : Nat) (inner : String) : String :=
  "At index " ++ toString i ++ ": " ++ inner

/-- The template `Missing key '${key}' in object`. -/
def missingKeyMsg (key : String) : String :=
  "Missing key '" ++ key ++ "' in object"

/-- The template `In key '${key}': ${e.message}`. -/
def inKeyMsg (key : String) (inner : String) : String :=
  "In key '" ++ key ++ "': " ++ inner

/-- The message of line 61. -/
def emptyTypeMsg : String :=
  "Empty type array: Provide at least one type"

/-- The template `In argument ${i}: ${e.message}`. -/
def inArgumentMsg (i : Nat) (inner : String) : String :=
  "In argument " ++ toString i ++ ": " ++ inner

/-- A `try { .. } catch (e) { throw new TypeAssertionError(wrap(e.message)) }`
around a call. -/
def rethrow {α : Type} (wrap : String → String) : Result α → Result α
  | .ok a => .ok a
  | .error e => .error ⟨wrap e.message⟩

/-- The call returned a value instead of throwing. -/
def succeeds {α : Type} : Result α → Bool
  | .ok _ => true
  | .error _ => false

/-! ## The matcher -/

/-- The method `Array.prototype.map` with a callback that may throw: it runs on
the elements in order, with their index counted from `i`, and the first throw
ends the loop. -/
def mapIdxM {β α : Type} (f : Nat → β → Result α) : Nat → List β → Result (List α)
  | _, [] => .ok []
  | i, item :: rest =>
    match f i item with
    | .error e => .error e
    | .ok r =>
      match mapIdxM f (i + 1) rest with
      | .error e => .error e
      | .ok rs => .ok (r :: rs)

/-- The callback of `Array.prototype.map` at one slot of an array: `map` does
not call it on a hole, and the hole stays a hole. -/
def onElement (f : Value → Result Value) : Option Value → Result (Option Value)
  | none => .ok none
  | some item =>
    match f item with
    | .error e => .error e
    | .ok r => .ok (some r)

/-- The tag branch of `tY1` (lines 100 to 126): the registry test and the
`switch`. -/
def tY1Tag (value : Value) (type : String) : Result Value :=
  match nicks.lookup type with
  | none => .error ⟨unknownMsg type⟩
  | some kind =>
    if type = "str" ∨ type = "bool" ∨ type = "symb" ∨ type = "func" then
      if some (typeOf value) ≠ typeOfMap.lookup type then .error ⟨expectedMsg kind value⟩
      else .ok value
    else if type = "numb" then
      if typeOf value ≠ "number" ∨ isNaN value then .error ⟨expectedMsg "Number" value⟩
      else .ok value
    else if type = "int" then
      if typeOf value ≠ "number" ∨ isNaN value ∨ !numberIsInteger value then
        .error ⟨expectedMsg "Integer" value⟩
      else .ok value
    else if type = "float" then
      if typeOf value ≠ "number" ∨ isNaN value ∨ numberIsInteger value then
        .error ⟨expectedMsg "Float" value⟩
      else .ok value
    else if type = "arr" then
      if !isArray value then .error ⟨expectedMsg "Array" value⟩ else .ok value
    else
      if getTag value ≠ kind then .error ⟨expectedMsg kind value⟩ else .ok value

mutual
/-- The function `tY1(value, type)`.  The second `Array.isArray(value)` test
(line 65) stands behind the first (line 60) and cannot throw. -/
def tY1 (value : Value) : Descriptor → Result Value
  | .arr types =>
    match value with
    | .array items =>
      match types with
      | [] => .error ⟨emptyTypeMsg⟩
      | [t0] =>
        (mapIdxM (fun i slot => onElement (fun item => rethrow (atIndexMsg i) (tY1 item t0)) slot)
          0 items).map Value.array
      | t0 :: t1 :: ts => (tY1Tuple (t0 :: t1 :: ts) items 0).map Value.array
    | _ => .error ⟨expectedMsg "Array" value⟩
  | .obj entries =>
    if getTag value ≠ "Object" ∨ isNull value then .error ⟨expectedMsg "Object" value⟩
    else
      match tY1Entries value entries with
      | .error e => .error e
      | .ok _ => .ok value
  | .tag name => tY1Tag value name
/-- The tuple branch (lines 66 to 73): `value.map` over the slots from index
`i` on, `types` being the descriptors from index `i` on; a hole is skipped,
and once the descriptors run out (`i >= type.length`) the elements are
returned as they are. -/
def tY1Tuple : List Descriptor → List (Option Value) → Nat → Result (List (Option Value))
  | [], items, _ => .ok items
  | _ :: _, [], _ => .ok []
  | _ :: ts, none :: rest, i =>
    match tY1Tuple ts rest (i + 1) with
    | .error e => .error e
    | .ok rs => .ok (none :: rs)
  | t :: ts, some item :: rest, i =>
    match rethrow (atIndexMsg i) (tY1 item t) with
    | .error e => .error e
    | .ok r =>
      match tY1Tuple ts rest (i + 1) with
      | .error e => .error e
      | .ok rs => .ok (some r :: rs)
/-- The loop over `Object.entries(type)` (lines 89 to 96). -/
def tY1Entries (value : Value) : List (String × Descriptor) → Result Unit
  | [] => .ok ()
  | (key, expectedType) :: rest =>
    if !hasKey value key then .error ⟨missingKeyMsg key⟩
    else
      match rethrow (inKeyMsg key) (tY1 (getKey value key) expectedType) with
      | .error e => .error e
      | .ok _ => tY1Entries value rest
end

/-- The function `tY(typedArgs)`.  Whatever `tY1` throws is a
`TypeAssertionError`, so `e instanceof Error` holds in the `catch`. -/
def tY (typedArgs : List (Value × Descriptor)) : Result (List Value) :=
  mapIdxM (fun i p => rethrow (inArgumentMsg i) (tY1 p.1 p.2)) 0 typedArgs

/-! ## The lenient matchers -/

/-- The template `tY_L: In argument ${i}: ${e.message}`. -/
def tYLMsg (i : Nat) (inner : String) : String :=
  "tY_L: In argument " ++ toString i ++ ": " ++ inner

/-- The function `tY1_L(value, type)`: the value it returns, and the messages
it sends to `console.warn`, in order. -/
def tY1_L (value : Value) (type : Descriptor) : Value × List String :=
  match tY1 value type with
  | .ok r => (r, [])
  | .error e => (value, [e.message])

/-- The method `Array.prototype.map` with a callback that does not throw and
may warn: the results, and the warnings in the order of the elements. -/
def mapIdxW {β α : Type} (f : Nat → β → α × List String) : Nat → List β → List α × List String
  | _, [] => ([], [])
  | i, item :: rest =>
    ((f i item).1 :: (mapIdxW f (i + 1) rest).1, (f i item).2 ++ (mapIdxW f (i + 1) rest).2)

/-- The function `tY_L(typedArgs)`: the list it returns, and the messages it
sends to `console.warn`, in order. -/
def tY_L (typedArgs : List (Value × Descriptor)) : List Value × List String :=
  mapIdxW (fun i p =>
    match tY1 p.1 p.2 with
    | .ok r => (r, [])
    | .error e => (p.1, [tYLMsg i e.message])) 0 typedArgs

/-! ## The function wrappers -/

/-- What a call may throw: a `TypeAssertionError`, or anything that is not
`instanceof TypeAssertionError`. -/
inductive Thrown where
  | typeAssertion (e : TypeAssertionError)
  | other (name : String) (message : String)

/-- A function to wrap: its `name`, and `fn.apply(thisArg, args)`, which
returns a value or throws. -/
structure JSFunction where
  name : String
  apply : Value → List Value → Except Thrown Value

/-- What one call of a wrapper did: what it returned or threw, the messages it
sent to `console.warn`, and the calls `fn.apply(thisArg, args)` it made. -/
structure Outcome where
  result : Except Thrown Value
  warnings : List String
  calls : List (Value × List Value)

/-- The read `typeList[i]`.  Past the end it is `undefined`, a descriptor that
takes the tag branch of `tY1` as the property key `undefined`. -/
def typeAt (typeList : List Descriptor) (i : Nat) : Descriptor :=
  typeList.getD i (.tag "undefined")

/-- The pairs `args.map((val, i) => [val, typeList[i]])`, with the index
counted from `i`. -/
def pairArgsFrom (typeList : List Descriptor) : Nat → List Value → List (Value × Descriptor)
  | _, [] => []
  | i, val :: rest => (val, typeAt typeList i) :: pairArgsFrom typeList (i + 1) rest

/-- The pairs `args.map((val, i) => [val, typeList[i]])`. -/
def pairArgs (args : List Value) (typeList : List Descriptor) : List (Value × Descriptor) :=
  pairArgsFrom typeList 0 args

/-- The template `Expected ${typeList.length} arguments, got ${args.length}`. -/
def arityMsg (expected got : Nat) : String :=
  "Expected " ++ toString expected ++ " arguments, got " ++ toString got

/-- The expression `fn.name || 'anonymous'`: the empty name is falsy. -/
def fnLabel (fn : JSFunction) : String :=
  if fn.name = "" then "anonymous" else fn.name

/-- The template `In tY_F(${fn.name || 'anonymous'}): ${e.message}`. -/
def inTYFMsg (fn : JSFunction) (inner : String) : String :=
  "In tY_F(" ++ fnLabel fn ++ "): " ++ inner

/-- The `try` block of `tY_F` (lines 167 and 168): `tY` on the pairs, then
`fn.apply(this, checkedArgs)`. -/
def tYFBody (typeList : List Descriptor) (fn : JSFunction) (thisArg : Value)
    (args : List Value) : Outcome :=
  match tY (pairArgs args typeList) with
  | .error e => ⟨.error (.typeAssertion e), [], []⟩
  | .ok checkedArgs => ⟨fn.apply thisArg checkedArgs, [], [(thisArg, checkedArgs)]⟩

/-- The `catch` block of `tY_F` (lines 170 and 171), on what the `try` block
threw or returned. -/
def tYFCatch (fn : JSFunction) : Except Thrown Value → Except Thrown Value
  | .error (.typeAssertion e) => .error (.typeAssertion ⟨inTYFMsg fn e.message⟩)
  | .error (.other name message) => .error (.other name message)
  | .ok r => .ok r

/-- The function `tY_F(typeList, fn)`, called on `thisArg` with `args`. -/
def tY_F (typeList : List Descriptor) (fn : JSFunction) (thisArg : Value)
    (args : List Value) : Outcome :=
  if args.length ≠ typeList.length then
    ⟨.error (.typeAssertion ⟨arityMsg typeList.length args.length⟩), [], []⟩
  else
    ⟨tYFCatch fn (tYFBody typeList fn thisArg args).result,
      (tYFBody typeList fn thisArg args).warnings, (tYFBody typeList fn thisArg args).calls⟩

/-- The function `tY_F_L(typeList, fn)`, called on `thisArg` with `args`. -/
def tY_F_L (typeList : List Descriptor) (fn : JSFunction) (thisArg : Value)
    (args : List Value) : Outcome :=
  ⟨fn.apply thisArg (tY_L (pairArgs args typeList)).1, (tY_L (pairArgs args typeList)).2,
    [(thisArg, (tY_L (pairArgs args typeList)).1)]⟩

/-! ## Property order -/

/-- The value of a string of decimal digits. -/
def digitsValue (cs : List Char) : Nat :=
  cs.foldl (fun acc c => 10 * acc + (c.toNat - 48)) 0

/-- The array index a property key is, if any: a canonical decimal numeral (no
leading zero) below `2^32 - 1`. -/
def arrayIndex (key : String) : Option Nat :=
  match key.data with
  | [] => none
  | c :: cs =>
    if (c :: cs).all Char.isDigit && (c != '0' || cs.isEmpty)
        && decide (digitsValue (c :: cs) < 4294967295) then
      some (digitsValue (c :: cs))
    else none

/-- Insertion of an entry with an array-index key into entries sorted by
index. -/
def insertByIndex {α : Type} (n : Nat) (entry : String × α) :
    List (Nat × (String × α)) → List (Nat × (String × α))
  | [] => [(n, entry)]
  | (m, other) :: rest =>
    if n ≤ m then (n, entry) :: (m, other) :: rest
    else (m, other) :: insertByIndex n entry rest

/-- The entries with an array-index key, sorted by index. -/
def indexedEntries {α : Type} : List (String × α) → List (Nat × (String × α))
  | [] => []
  | entry :: rest =>
    match arrayIndex entry.1 with
    | some n => insertByIndex n entry (indexedEntries rest)
    | none => indexedEntries rest

/-- The order of `Object.entries(o)` for an object `o` whose own properties
were created in the order given, with distinct keys: the array-index keys in
ascending order, then the other keys in the order of their creation. -/
def objectEntries {α : Type} (created : List (String × α)) : List (String × α) :=
  (indexedEntries created).map Prod.snd ++ created.filter (fun p => (arrayIndex p.1).isNone)

/-! ## The kinds the specification lists -/

/-- The recognized kinds as section 3 of the specification enumerates them, by
the name of their runtime tag; its 32- and 64-bit typed arrays are read to
include the two float arrays. -/
def specKinds : List String :=
  [ "String", "Number", "Integer", "Float", "Boolean", "BigInt", "Symbol", "Function",
    "Array", "Int8Array", "Uint8Array", "Uint8ClampedArray", "Int16Array", "Uint16Array",
    "Int32Array", "Uint32Array", "Float32Array", "Float64Array",
    "Object", "RegExp", "Date", "Map", "Set", "WeakMap", "WeakSet", "Promise", "Error",
    "ArrayBuffer", "DataView" ]

/-! ## Helper lemmas -/

theorem succeeds_iff {α : Type} (r : Result α) : succeeds r = true ↔ ∃ a, r = .ok a := by
  cases r <;> simp [succeeds]

theorem succeeds_eq_false_iff {α : Type} (r : Result α) :
    succeeds r = false ↔ ∃ e, r = .error e := by
  cases r <;> simp [succeeds]

theorem rethrow_ok_iff {α : Type} (w : String → String) (r : Result α) (a : α) :
    rethrow w r = .ok a ↔ r = .ok a := by
  cases r <;> simp [rethrow]

theorem rethrow_error_iff {α : Type} (w : String → String) (r : Result α)
    (e : TypeAssertionError) :
    rethrow w r = .error e ↔ ∃ inner, r = .error inner ∧ e = ⟨w inner.message⟩ := by
  cases r <;> simp [rethrow, eq_comm]

theorem succeeds_rethrow {α : Type} (w : String → String) (r : Result α) :
    succeeds (rethrow w r) = succeeds r := by
  cases r <;> rfl

theorem mapIdxM_nil {β α : Type} (f : Nat → β → Result α) (i : Nat) :
    mapIdxM f i [] = .ok [] := rfl

theorem mapIdxM_cons {β α : Type} (f : Nat → β → Result α) (i : Nat) (x : β)
    (xs : List β) :
    mapIdxM f i (x :: xs) =
      match f i x with
      | .error e => .error e
      | .ok r =>
        match mapIdxM f (i + 1) xs with
        | .error e => .error e
        | .ok rs => .ok (r :: rs) := rfl

theorem mapIdxM_cons_ok_iff {β α : Type} (f : Nat → β → Result α) (i : Nat) (x : β)
    (xs : List β) (rs : List α) :
    mapIdxM f i (x :: xs) = .ok rs ↔
      ∃ r rest, rs = r :: rest ∧ f i x = .ok r ∧ mapIdxM f (i + 1) xs = .ok rest := by
  simp only [mapIdxM]
  cases hf : f i x with
  | error e => simp
  | ok r =>
    cases hm : mapIdxM f (i + 1) xs with
    | error e => simp
    | ok rest => simp [eq_comm]

theorem mapIdxM_cons_error_iff {β α : Type} (f : Nat → β → Result α) (i : Nat) (x : β)
    (xs : List β) (e : TypeAssertionError) :
    mapIdxM f i (x :: xs) = .error e ↔
      f i x = .error e ∨ (succeeds (f i x) = true ∧ mapIdxM f (i + 1) xs = .error e) := by
  simp only [mapIdxM]
  cases hf : f i x with
  | error e => simp [succeeds]
  | ok r =>
    cases hm : mapIdxM f (i + 1) xs with
    | error e => simp [succeeds]
    | ok rest => simp [succeeds]

/-- A successful `map` returns as many results as there were elements, the
`j`-th one being the callback's result on the `j`-th element. -/
theorem mapIdxM_ok_iff {β α : Type} (f : Nat → β → Result α) (xs : List β) :
    ∀ (i : Nat) (rs : List α), mapIdxM f i xs = .ok rs ↔
      (rs.length = xs.length ∧
        ∀ j x r, xs[j]? = some x → rs[j]? = some r → f (i + j) x = .ok r) := by
  induction xs with
  | nil =>
    intro i rs
    simp [mapIdxM_nil]
  | cons x xs ih =>
    intro i rs
    rw [mapIdxM_cons_ok_iff]
    constructor
    · rintro ⟨r, rest, rfl, hx, hrest⟩
      obtain ⟨hlen, hall⟩ := (ih (i + 1) rest).mp hrest
      refine ⟨by simp [hlen], ?_⟩
      intro j y s hy hs
      cases j with
      | zero =>
        simp at hy hs
        subst hy; subst hs
        simpa using hx
      | succ j =>
        simp at hy hs
        have := hall j y s hy hs
        rwa [Nat.add_assoc, Nat.add_comm 1 j] at this
    · rintro ⟨hlen, hall⟩
      cases rs with
      | nil => simp at hlen
      | cons r rest =>
        refine ⟨r, rest, rfl, ?_, ?_⟩
        · simpa using hall 0 x r (by simp) (by simp)
        · apply (ih (i + 1) rest).mpr
          refine ⟨by simpa using hlen, ?_⟩
          intro j y s hy hs
          have := hall (j + 1) y s (by simpa using hy) (by simpa using hs)
          rwa [Nat.add_assoc, Nat.add_comm 1 j]

/-- A `map` succeeds exactly when its callback succeeds at every index. -/
theorem succeeds_mapIdxM_iff {β α : Type} (f : Nat → β → Result α) (xs : List β) :
    ∀ (i : Nat), succeeds (mapIdxM f i xs) = true ↔
      ∀ j x, xs[j]? = some x → succeeds (f (i + j) x) = true := by
  induction xs with
  | nil => intro i; simp [mapIdxM_nil, succeeds]
  | cons x xs ih =>
    intro i
    rw [succeeds_iff]
    constructor
    · rintro ⟨rs, hrs⟩
      obtain ⟨r, rest, rfl, hx, hrest⟩ := (mapIdxM_cons_ok_iff f i x xs rs).mp hrs
      intro j y hy
      cases j with
      | zero =>
        simp at hy; subst hy
        simp [hx, succeeds]
      | succ j =>
        simp at hy
        have := (ih (i + 1)).mp ((succeeds_iff _).mpr ⟨rest, hrest⟩) j y hy
        rwa [Nat.add_assoc, Nat.add_comm 1 j] at this
    · intro hall
      obtain ⟨r, hr⟩ := (succeeds_iff _).mp (hall 0 x (by simp))
      have htail : succeeds (mapIdxM f (i + 1) xs) = true := by
        apply (ih (i + 1)).mpr
        intro j y hy
        have := hall (j + 1) y (by simpa using hy)
        rwa [Nat.add_assoc, Nat.add_comm 1 j]
      obtain ⟨rest, hrest⟩ := (succeeds_iff _).mp htail
      exact ⟨r :: rest, (mapIdxM_cons_ok_iff f i x xs _).mpr ⟨r, rest, rfl, by simpa using hr, hrest⟩⟩

theorem map_ok_iff {α β : Type} (g : α → β) (x : Result α) (b : β) :
    Except.map g x = .ok b ↔ ∃ a, x = .ok a ∧ b = g a := by
  cases x <;> simp [Except.map, eq_comm]

theorem succeeds_map {α β : Type} (g : α → β) (x : Result α) :
    succeeds (Except.map g x) = succeeds x := by
  cases x <;> rfl

theorem tY1Tag_ok_eq (v r : Value) (name : String) (h : tY1Tag v name = .ok r) : r = v := by
  unfold tY1Tag at h
  split at h
  · simp at h
  · split_ifs at h <;> simp_all

theorem onElement_none (f : Value → Result Value) : onElement f none = .ok none := rfl

theorem onElement_some_ok_iff (f : Value → Result Value) (x : Value) (r : Option Value) :
    onElement f (some x) = .ok r ↔ ∃ y, f x = .ok y ∧ r = some y := by
  simp only [onElement]
  cases f x <;> simp [eq_comm]

theorem onElement_some_error_iff (f : Value → Result Value) (x : Value)
    (e : TypeAssertionError) : onElement f (some x) = .error e ↔ f x = .error e := by
  simp only [onElement]
  cases f x <;> simp

theorem succeeds_onElement_none (f : Value → Result Value) :
    succeeds (onElement f none) = true := rfl

theorem succeeds_onElement_some (f : Value → Result Value) (x : Value) :
    succeeds (onElement f (some x)) = succeeds (f x) := by
  simp only [onElement]
  cases f x <;> rfl

theorem tY1_array_one (items : List (Option Value)) (t0 : Descriptor) :
    tY1 (.array items) (.arr [t0]) =
      (mapIdxM (fun i slot => onElement (fun item => rethrow (atIndexMsg i) (tY1 item t0)) slot)
        0 items).map Value.array := by
  simp [tY1]

theorem tY1_array_many (items : List (Option Value)) (t0 t1 : Descriptor)
    (ts : List Descriptor) :
    tY1 (.array items) (.arr (t0 :: t1 :: ts)) =
      (tY1Tuple (t0 :: t1 :: ts) items 0).map Value.array := by
  simp [tY1]

theorem tY1_array_nil (items : List (Option Value)) :
    tY1 (.array items) (.arr []) = .error ⟨emptyTypeMsg⟩ := by
  simp [tY1]

theorem tY1_not_array (v : Value) (types : List Descriptor) (h : isArray v = false) :
    tY1 v (.arr types) = .error ⟨expectedMsg "Array" v⟩ := by
  cases v <;> simp [tY1, isArray] at h ⊢

theorem tY1_tag (v : Value) (name : String) : tY1 v (.tag name) = tY1Tag v name := by
  simp [tY1]

theorem tY1_obj (v : Value) (entries : List (String × Descriptor)) :
    tY1 v (.obj entries) =
      if getTag v ≠ "Object" ∨ isNull v = true then .error ⟨expectedMsg "Object" v⟩
      else match tY1Entries v entries with
        | .error e => .error e
        | .ok _ => .ok v := by
  simp [tY1]

theorem tY1Tuple_cons_some (t : Descriptor) (ts : List Descriptor) (item : Value)
    (rest : List (Option Value)) (i : Nat) :
    tY1Tuple (t :: ts) (some item :: rest) i =
      match rethrow (atIndexMsg i) (tY1 item t) with
      | .error e => .error e
      | .ok r =>
        match tY1Tuple ts rest (i + 1) with
        | .error e => .error e
        | .ok rs => .ok (some r :: rs) := by
  simp [tY1Tuple]

theorem tY1Tuple_cons_none (t : Descriptor) (ts : List Descriptor)
    (rest : List (Option Value)) (i : Nat) :
    tY1Tuple (t :: ts) (none :: rest) i =
      match tY1Tuple ts rest (i + 1) with
      | .error e => .error e
      | .ok rs => .ok (none :: rs) := by
  simp [tY1Tuple]

theorem tY1Entries_cons (v : Value) (key : String) (d : Descriptor)
    (rest : List (String × Descriptor)) :
    tY1Entries v ((key, d) :: rest) =
      if hasKey v key = false then .error ⟨missingKeyMsg key⟩
      else match rethrow (inKeyMsg key) (tY1 (getKey v key) d) with
        | .error e => .error e
        | .ok _ => tY1Entries v rest := by
  simp [tY1Entries]

mutual
/-- A successful `tY1` returns a value equal to its argument. -/
theorem tY1_ok_eq : ∀ (d : Descriptor) (v r : Value), tY1 v d = .ok r → r = v
  | .tag name, v, r, h => tY1Tag_ok_eq v r name (by rwa [tY1_tag] at h)
  | .obj entries, v, r, h => by
    rw [tY1_obj] at h
    split_ifs at h
    split at h <;> simp_all
  | .arr [], v, r, h => by
    cases v <;> simp [tY1] at h
  | .arr [t0], v, r, h => by
    cases hv : isArray v with
    | false => rw [tY1_not_array v _ hv] at h; simp at h
    | true =>
      cases v <;> simp [isArray] at hv
      rename_i items
      rw [tY1_array_one, map_ok_iff] at h
      obtain ⟨rs, hrs, rfl⟩ := h
      obtain ⟨hlen, hall⟩ := (mapIdxM_ok_iff _ items 0 rs).mp hrs
      congr 1
      apply List.ext_getElem hlen
      intro j h1 h2
      have hslot := hall j items[j] rs[j] (by simp [h2]) (by simp [h1])
      cases hitem : items[j] with
      | none =>
        rw [hitem, onElement_none] at hslot
        injection hslot with hslot
        exact hslot.symm
      | some x =>
        rw [hitem, onElement_some_ok_iff] at hslot
        obtain ⟨y, hy, hr⟩ := hslot
        rw [rethrow_ok_iff] at hy
        rw [hr, tY1_ok_eq t0 x y hy]
  | .arr (t0 :: t1 :: ts), v, r, h => by
    cases hv : isArray v with
    | false => rw [tY1_not_array v _ hv] at h; simp at h
    | true =>
      cases v <;> simp [isArray] at hv
      rename_i items
      rw [tY1_array_many, map_ok_iff] at h
      obtain ⟨rs, hrs, rfl⟩ := h
      congr 1
      exact tY1Tuple_ok_eq (t0 :: t1 :: ts) items rs 0 hrs
/-- A successful tuple loop returns the slots it was given. -/
theorem tY1Tuple_ok_eq : ∀ (ds : List Descriptor) (items rs : List (Option Value)) (i : Nat),
    tY1Tuple ds items i = .ok rs → rs = items
  | [], items, rs, i, h => by simp [tY1Tuple] at h; exact h.symm
  | _ :: _, [], rs, i, h => by simp [tY1Tuple] at h; exact h
  | t :: ts, none :: rest, rs, i, h => by
    rw [tY1Tuple_cons_none] at h
    cases h2 : tY1Tuple ts rest (i + 1) with
    | error e => simp [h2] at h
    | ok rs2 =>
      simp [h2] at h
      rw [← h, tY1Tuple_ok_eq ts rest rs2 (i + 1) h2]
  | t :: ts, some item :: rest, rs, i, h => by
    rw [tY1Tuple_cons_some] at h
    cases h1 : rethrow (atIndexMsg i) (tY1 item t) with
    | error e => simp [h1] at h
    | ok r =>
      cases h2 : tY1Tuple ts rest (i + 1) with
      | error e => simp [h1, h2] at h
      | ok rs2 =>
        simp [h1, h2] at h
        rw [rethrow_ok_iff] at h1
        rw [← h, tY1_ok_eq t item r h1, tY1Tuple_ok_eq ts rest rs2 (i + 1) h2]
end

/-- Under a registered name the tag branch either returns the value or throws
the `Expected .., got ..` message of the name's kind. -/
theorem tY1Tag_registered (v : Value) (name kind : String)
    (hreg : nicks.lookup name = some kind) :
    tY1Tag v name = .ok v ∨ tY1Tag v name = .error ⟨expectedMsg kind v⟩ := by
  unfold tY1Tag
  rw [hreg]
  simp only
  split_ifs with h1 h2 h3 h4 h5 h6 h7 h8 h9 h10
  all_goals first
    | exact Or.inl rfl
    | exact Or.inr rfl
    | (subst_vars
       have hk : kind = _ := (Option.some.inj hreg).symm
       simp [nicks] at hk
       subst hk
       exact Or.inr rfl)

theorem tY1Tag_unregistered (v : Value) (name : String) (hreg : nicks.lookup name = none) :
    tY1Tag v name = .error ⟨unknownMsg name⟩ := by
  unfold tY1Tag
  rw [hreg]

theorem lookup_nicks_isSome_iff (name : String) :
    (nicks.lookup name).isSome = true ↔ name ∈ tYpeNicks := by
  unfold tYpeNicks
  induction nicks with
  | nil => simp
  | cons p ps ih =>
    obtain ⟨k, x⟩ := p
    by_cases hk : name = k
    · subst hk; simp [List.lookup]
    · have : (name == k) = false := by simpa using hk
      simp [List.lookup, this, hk, ih]

theorem expectedMsg_ne_unknown (kind : String) (v : Value) (name rest : String) :
    expectedMsg kind v ≠ "Unknown assertion: " ++ name ++ rest := by
  intro h
  have := congrArg String.data h
  simp [expectedMsg, String.data_append] at this

/-! ## The claims -/

/-- C1: when `tY1(v, d)` succeeds, the value it returns equals `v`: a scalar or
an object is returned as it is and an array is rebuilt with the same elements
in the same order, so no value is converted by a successful match. -/
theorem tY1_returns_value_unchanged (v : Value) (d : Descriptor) (r : Value)
    (h : tY1 v d = .ok r) : r = v :=
  tY1_ok_eq d v r h

/-- C1, at `tY1([1, "hi", false], ["int", "str", "bool"])`. -/
theorem tY1_returns_value_unchanged_witness :
    tY1 (.array [some (.number (.finite false 1 0)), some (.string "hi"), some (.bool false)])
        (.arr [.tag "int", .tag "str", .tag "bool"])
      = .ok (.array [some (.number (.finite false 1 0)), some (.string "hi"),
          some (.bool false)]) ∧
    Value.array [some (.number (.finite false 1 0)), some (.string "hi"), some (.bool false)]
      = Value.array [some (.number (.finite false 1 0)), some (.string "hi"),
          some (.bool false)] :=
  ⟨rfl, tY1_returns_value_unchanged
    (.array [some (.number (.finite false 1 0)), some (.string "hi"), some (.bool false)])
    (.arr [.tag "int", .tag "str", .tag "bool"])
    (.array [some (.number (.finite false 1 0)), some (.string "hi"), some (.bool false)]) rfl⟩

/-- C2 as stated fails at `tY1(new String("x"), "str")`: the value's
`Object.prototype.toString` tag is `String`, which is `nicks.str`, and yet the
match fails, because the `str` case tests `typeof`. -/
theorem tY1_str_boxed_string_counterexample :
    some (getTag (.object "String" [("0", .string "x"), ("length", .number (.finite false 1 0))]))
      = nicks.lookup "str" ∧
    succeeds (tY1 (.object "String" [("0", .string "x"), ("length", .number (.finite false 1 0))])
      (.tag "str")) = false ∧
    tY1 (.object "String" [("0", .string "x"), ("length", .number (.finite false 1 0))])
      (.tag "str") = .error ⟨"Expected String, got String"⟩ :=
  ⟨rfl, rfl, rfl⟩

/-- C2, amended: for a registered tag `t` other than `numb`, `int` and `float`,
`tY1(v, t)` either returns `v` or fails with `Expected <nicks[t]>, got
<getTag(v)>`; it succeeds iff `typeof v` is `typeOfMap[t]` when `t` is `str`,
`bool`, `symb` or `func`, iff `Array.isArray(v)` when `t` is `arr`, and iff
`getTag(v)` equals `nicks[t]` for every other tag. -/
theorem tY1_tag_rule (t kind : String) (v : Value)
    (hreg : nicks.lookup t = some kind)
    (hnumb : t ≠ "numb") (hint : t ≠ "int") (hfloat : t ≠ "float") :
    (tY1 v (.tag t) = .ok v ∨
      tY1 v (.tag t) = .error ⟨"Expected " ++ kind ++ ", got " ++ getTag v⟩) ∧
    (t ∈ ["str", "bool", "symb", "func"] →
      (succeeds (tY1 v (.tag t)) = true ↔ some (typeOf v) = typeOfMap.lookup t)) ∧
    (t = "arr" → (succeeds (tY1 v (.tag t)) = true ↔ isArray v = true)) ∧
    (t ∉ ["str", "bool", "symb", "func", "arr"] →
      (succeeds (tY1 v (.tag t)) = true ↔ getTag v = kind)) := by
  refine ⟨?_, ?_, ?_, ?_⟩
  · rw [tY1_tag]
    exact tY1Tag_registered v t kind hreg
  · intro ht
    have ht' : t = "str" ∨ t = "bool" ∨ t = "symb" ∨ t = "func" := by simpa using ht
    rw [tY1_tag]
    unfold tY1Tag
    rw [hreg]
    simp only [if_pos ht']
    split_ifs with h <;> simp_all [succeeds]
  · intro ht
    subst ht
    rw [tY1_tag]
    unfold tY1Tag
    rw [hreg]
    cases v <;> simp [succeeds, isArray]
  · intro ht
    simp only [List.mem_cons, List.mem_singleton, List.not_mem_nil, or_false, not_or] at ht
    obtain ⟨h1, h2, h3, h4, h5⟩ := ht
    rw [tY1_tag]
    unfold tY1Tag
    rw [hreg]
    simp only [h1, h2, h3, h4, h5, hnumb, hint, hfloat, or_self, if_false]
    split_ifs with h <;> simp_all [succeeds]

/-- C2 amended, at `tY1(new Map(), "map")`, which succeeds. -/
theorem tY1_tag_rule_witness :
    nicks.lookup "map" = some "Map" ∧
    (succeeds (tY1 (.object "Map" []) (.tag "map")) = true ↔ getTag (.object "Map" []) = "Map") :=
  ⟨rfl, (tY1_tag_rule "map" "Map" (.object "Map" []) rfl (by decide) (by decide) (by decide)).2.2.2
    (by decide)⟩

/-- C3: `tY1(v, "numb")` succeeds iff `v` is a number other than `NaN`,
`tY1(v, "int")` iff moreover `Number.isInteger(v)`, and `tY1(v, "float")` iff
moreover not `Number.isInteger(v)`; each returns `v` on success and fails with
`Expected Number`, `Expected Integer` or `Expected Float`, followed by
`, got <getTag(v)>`. -/
theorem tY1_number_tags (v : Value) :
    (succeeds (tY1 v (.tag "numb")) = true ↔ ∃ n, v = .number n ∧ n.isNaN = false) ∧
    (succeeds (tY1 v (.tag "int")) = true ↔
      ∃ n, v = .number n ∧ n.isNaN = false ∧ n.isInteger = true) ∧
    (succeeds (tY1 v (.tag "float")) = true ↔
      ∃ n, v = .number n ∧ n.isNaN = false ∧ n.isInteger = false) ∧
    (tY1 v (.tag "numb") = .ok v ∨
      tY1 v (.tag "numb") = .error ⟨"Expected Number, got " ++ getTag v⟩) ∧
    (tY1 v (.tag "int") = .ok v ∨
      tY1 v (.tag "int") = .error ⟨"Expected Integer, got " ++ getTag v⟩) ∧
    (tY1 v (.tag "float") = .ok v ∨
      tY1 v (.tag "float") = .error ⟨"Expected Float, got " ++ getTag v⟩) := by
  have hn : nicks.lookup "numb" = some "Number" := rfl
  have hi : nicks.lookup "int" = some "Integer" := rfl
  have hf : nicks.lookup "float" = some "Float" := rfl
  refine ⟨?_, ?_, ?_, ?_, ?_, ?_⟩
  · rw [tY1_tag]; unfold tY1Tag; rw [hn]
    cases v <;> simp [succeeds, typeOf, isNaN]
    rename_i n
    cases h : n.isNaN <;> simp [succeeds]
  · rw [tY1_tag]; unfold tY1Tag; rw [hi]
    cases v <;> simp [succeeds, typeOf, isNaN, numberIsInteger]
    rename_i n
    cases h : n.isNaN <;> cases h2 : n.isInteger <;> simp [succeeds]
  · rw [tY1_tag]; unfold tY1Tag; rw [hf]
    cases v <;> simp [succeeds, typeOf, isNaN, numberIsInteger]
    rename_i n
    cases h : n.isNaN <;> cases h2 : n.isInteger <;> simp [succeeds]
  · rw [tY1_tag]; exact tY1Tag_registered v "numb" "Number" hn
  · rw [tY1_tag]; exact tY1Tag_registered v "int" "Integer" hi
  · rw [tY1_tag]; exact tY1Tag_registered v "float" "Float" hf

theorem succeeds_ok {α : Type} (a : α) : succeeds (Except.ok a : Result α) = true := rfl

theorem succeeds_error {α : Type} (e : TypeAssertionError) :
    succeeds (Except.error e : Result α) = false := rfl

/-- The tuple loop succeeds exactly when every element that has a descriptor
at its position matches it; a hole is not an element. -/
theorem succeeds_tY1Tuple_iff (ds : List Descriptor) :
    ∀ (items : List (Option Value)) (i : Nat), succeeds (tY1Tuple ds items i) = true ↔
      ∀ (j : Nat) d x, ds[j]? = some d → items[j]? = some (some x) →
        succeeds (tY1 x d) = true := by
  induction ds with
  | nil => intro items i; simp [tY1Tuple, succeeds]
  | cons t ts ih =>
    intro items i
    cases items with
    | nil => simp [tY1Tuple, succeeds]
    | cons slot rest =>
      cases slot with
      | none =>
        rw [tY1Tuple_cons_none]
        have hiff := ih rest (i + 1)
        constructor
        · intro h j d x hd hx
          cases h2 : tY1Tuple ts rest (i + 1) with
          | error e => simp [h2, succeeds] at h
          | ok rs =>
            cases j with
            | zero => simp at hx
            | succ j =>
              simp at hd hx
              exact hiff.mp (by rw [h2]; rfl) j d x hd hx
        · intro h
          have hrest : succeeds (tY1Tuple ts rest (i + 1)) = true := by
            apply hiff.mpr
            intro j d x hd hx
            exact h (j + 1) d x (by simpa using hd) (by simpa using hx)
          obtain ⟨rs, hrs⟩ := (succeeds_iff _).mp hrest
          simp [hrs, succeeds]
      | some item =>
        rw [tY1Tuple_cons_some]
        constructor
        · intro h j d x hd hx
          cases h1 : rethrow (atIndexMsg i) (tY1 item t) with
          | error e => simp [h1, succeeds] at h
          | ok r =>
            cases h2 : tY1Tuple ts rest (i + 1) with
            | error e => simp [h1, h2, succeeds] at h
            | ok rs =>
              cases j with
              | zero =>
                simp at hd hx
                subst hd; subst hx
                rw [← succeeds_rethrow (atIndexMsg i), h1]
                rfl
              | succ j =>
                simp at hd hx
                exact (ih rest (i + 1)).mp (by rw [h2]; rfl) j d x hd hx
        · intro h
          have h0 : succeeds (rethrow (atIndexMsg i) (tY1 item t)) = true := by
            rw [succeeds_rethrow]
            exact h 0 t item (by simp) (by simp)
          have hrest : succeeds (tY1Tuple ts rest (i + 1)) = true := by
            apply (ih rest (i + 1)).mpr
            intro j d x hd hx
            exact h (j + 1) d x (by simpa using hd) (by simpa using hx)
          obtain ⟨r, hr⟩ := (succeeds_iff _).mp h0
          obtain ⟨rs, hrs⟩ := (succeeds_iff _).mp hrest
          simp [hr, hrs, succeeds]

/-- The loop over the descriptor's entries succeeds exactly when every key is
present in the value and the value under it matches. -/
theorem succeeds_tY1Entries_iff (v : Value) (entries : List (String × Descriptor)) :
    succeeds (tY1Entries v entries) = true ↔
      ∀ k d, (k, d) ∈ entries → hasKey v k = true ∧ succeeds (tY1 (getKey v k) d) = true := by
  induction entries with
  | nil => simp [tY1Entries, succeeds]
  | cons p rest ih =>
    obtain ⟨key, t⟩ := p
    rw [tY1Entries_cons]
    cases hk : hasKey v key with
    | false =>
      simp only [if_true, succeeds_error]
      constructor
      · intro h; cases h
      · intro h
        have := (h key t (by simp)).1
        rw [hk] at this
        cases this
    | true =>
      simp only [Bool.true_eq_false, if_false]
      cases h1 : rethrow (inKeyMsg key) (tY1 (getKey v key) t) with
      | error e =>
        simp only [succeeds_error]
        constructor
        · intro h; cases h
        · intro h
          have := (h key t (by simp)).2
          rw [← succeeds_rethrow (inKeyMsg key), h1] at this
          cases this
      | ok r =>
        have h1' : succeeds (tY1 (getKey v key) t) = true := by
          rw [← succeeds_rethrow (inKeyMsg key), h1]; rfl
        simp only
        rw [ih]
        constructor
        · intro h k d hkd
          simp only [List.mem_cons, Prod.mk.injEq] at hkd
          rcases hkd with ⟨rfl, rfl⟩ | hkd
          · exact ⟨hk, h1'⟩
          · exact h k d hkd
        · intro h k d hkd
          exact h k d (List.mem_cons_of_mem _ hkd)

/-- The loop over the descriptor's entries reads the value only through the
keys the descriptor names. -/
theorem tY1Entries_congr (v w : Value) (entries : List (String × Descriptor))
    (h : ∀ k d, (k, d) ∈ entries → hasKey v k = hasKey w k ∧ getKey v k = getKey w k) :
    tY1Entries v entries = tY1Entries w entries := by
  induction entries with
  | nil => simp [tY1Entries]
  | cons p rest ih =>
    obtain ⟨key, t⟩ := p
    rw [tY1Entries_cons, tY1Entries_cons]
    obtain ⟨hk, hg⟩ := h key t (by simp)
    rw [hk, hg, ih (fun k d hkd => h k d (List.mem_cons_of_mem _ hkd))]

theorem succeeds_tY1_not_array (v : Value) (types : List Descriptor) (h : isArray v = false) :
    succeeds (tY1 v (.arr types)) = false := by
  rw [tY1_not_array v types h]; rfl

theorem isArray_iff (v : Value) : isArray v = true ↔ ∃ items, v = .array items := by
  cases v <;> simp [isArray]

/-- The tuple branch on an array, by positions: it succeeds exactly when every
element that has a descriptor at its position matches it. -/
theorem succeeds_tY1_tuple_iff (items : List (Option Value)) (ds : List Descriptor)
    (hlen : 1 < ds.length) :
    succeeds (tY1 (.array items) (.arr ds)) = true ↔
      ∀ (i : Nat) (x : Value) (t : Descriptor), items[i]? = some (some x) → ds[i]? = some t →
        succeeds (tY1 x t) = true := by
  match ds, hlen with
  | t0 :: t1 :: ts, _ =>
    rw [tY1_array_many, succeeds_map, succeeds_tY1Tuple_iff]
    constructor
    · intro h i x t hx ht
      exact h i t x ht hx
    · intro h j d x hd hx
      exact h j x d hx hd

/-- The homogeneous branch on an array: it succeeds exactly when every element
matches the descriptor. -/
theorem succeeds_tY1_homogeneous_iff (items : List (Option Value)) (d : Descriptor) :
    succeeds (tY1 (.array items) (.arr [d])) = true ↔
      ∀ (i : Nat) (x : Value), items[i]? = some (some x) → succeeds (tY1 x d) = true := by
  rw [tY1_array_one, succeeds_map, succeeds_mapIdxM_iff]
  constructor
  · intro h i x hx
    have := h i (some x) hx
    rwa [succeeds_onElement_some, succeeds_rethrow] at this
  · intro h j slot hslot
    cases slot with
    | none => rfl
    | some x =>
      rw [succeeds_onElement_some, succeeds_rethrow]
      exact h j x hslot

/-- An array without holes has at index `i` the element `xs[i]`. -/
theorem getElem?_map_some_iff (xs : List Value) (i : Nat) (x : Value) :
    (xs.map some)[i]? = some (some x) ↔ xs[i]? = some x := by
  rw [List.getElem?_map]
  cases xs[i]? <;> simp

/-- C4 as stated fails at the array `[ , ]` of length 1, whose only slot is a
hole, against `["str"]`: the match succeeds, although `v[0]` is `undefined`
and `tY1(undefined, "str")` fails. -/
theorem tY1_homogeneous_hole_counterexample :
    succeeds (tY1 (.array [none]) (.arr [.tag "str"])) = true ∧
    getIndex (.array [none]) 0 = .undefined ∧
    succeeds (tY1 (getIndex (.array [none]) 0) (.tag "str")) = false :=
  ⟨rfl, rfl, rfl⟩

/-- C4, amended: the homogeneous-array law. `tY1(v, [d])` succeeds iff `v` is
an array and `tY1(v[i], d)` succeeds for every index `i` at which `v` has an
element, the holes of `v` being skipped; for an array without holes these are
all the indices below its length. -/
theorem tY1_homogeneous_law (v : Value) (d : Descriptor) :
    (succeeds (tY1 v (.arr [d])) = true ↔
      ∃ items, v = .array items ∧
        ∀ (i : Nat) (x : Value), items[i]? = some (some x) → succeeds (tY1 x d) = true) ∧
    (∀ xs : List Value, succeeds (tY1 (.array (xs.map some)) (.arr [d])) = true ↔
      ∀ (i : Nat) (h : i < xs.length), succeeds (tY1 xs[i] d) = true) := by
  constructor
  · cases hv : isArray v with
    | false =>
      rw [succeeds_tY1_not_array v _ hv]
      constructor
      · intro h; cases h
      · rintro ⟨items, rfl, _⟩
        simp [isArray] at hv
    | true =>
      obtain ⟨items, rfl⟩ := (isArray_iff v).mp hv
      rw [succeeds_tY1_homogeneous_iff]
      constructor
      · intro h
        exact ⟨items, rfl, h⟩
      · rintro ⟨items2, heq, h⟩
        cases heq
        exact h
  · intro xs
    rw [succeeds_tY1_homogeneous_iff]
    constructor
    · intro h i hi
      exact h i xs[i] ((getElem?_map_some_iff xs i _).mpr (List.getElem?_eq_getElem hi))
    · intro h i x hx
      obtain ⟨hi, rfl⟩ := List.getElem?_eq_some.mp ((getElem?_map_some_iff xs i x).mp hx)
      exact h i hi

/-- C4 amended, at `tY1([1, , 3], ["int"])`, whose slot 1 is a hole. -/
theorem tY1_homogeneous_law_witness :
    succeeds (tY1 (.array [some (.number (.finite false 1 0)), none,
      some (.number (.finite false 3 0))]) (.arr [.tag "int"])) = true :=
  (tY1_homogeneous_law (.array [some (.number (.finite false 1 0)), none,
      some (.number (.finite false 3 0))]) (.tag "int")).1.mpr
    ⟨_, rfl, by
      intro i x hx
      match i, hx with
      | 0, hx => simp at hx; subst hx; rfl
      | 1, hx => simp at hx
      | 2, hx => simp at hx; subst hx; rfl
      | n + 3, hx => simp at hx⟩

/-- C5 as stated fails at `tY1([1], ["int", "str"])`: the match succeeds,
although position 1 is past the end of the value and `tY1(undefined, "str")`
fails; and at `tY1([ , "x"], ["int", "str"])`, whose slot 0 is a hole: the
match succeeds, although `v[0]` is `undefined` and `tY1(undefined, "int")`
fails. -/
theorem tY1_tuple_short_value_counterexample :
    (succeeds (tY1 (.array [some (.number (.finite false 1 0))])
        (.arr [.tag "int", .tag "str"])) = true ∧
      getIndex (.array [some (.number (.finite false 1 0))]) 1 = .undefined ∧
      succeeds (tY1 (getIndex (.array [some (.number (.finite false 1 0))]) 1) (.tag "str"))
        = false) ∧
    (succeeds (tY1 (.array [none, some (.string "x")]) (.arr [.tag "int", .tag "str"])) = true ∧
      getIndex (.array [none, some (.string "x")]) 0 = .undefined ∧
      succeeds (tY1 (getIndex (.array [none, some (.string "x")]) 0) (.tag "int")) = false) :=
  ⟨⟨rfl, rfl, rfl⟩, ⟨rfl, rfl, rfl⟩⟩

/-- C5, amended: for a descriptor list `ds` of more than one descriptor,
`tY1(v, ds)` succeeds iff `v` is an array and `tY1(v[i], ds[i])` succeeds for
every position `i` at which `v` has an element and `ds` a descriptor, holes
and positions past the end of `v` being skipped; the slots of `v` at a
position `ds` does not have never affect whether it succeeds. -/
theorem tY1_tuple_law (v : Value) (ds : List Descriptor) (hlen : 1 < ds.length) :
    (succeeds (tY1 v (.arr ds)) = true ↔
      ∃ items, v = .array items ∧
        ∀ (i : Nat) (x : Value) (t : Descriptor), items[i]? = some (some x) →
          ds[i]? = some t → succeeds (tY1 x t) = true) ∧
    (∀ items items2 : List (Option Value), items.take ds.length = items2.take ds.length →
      succeeds (tY1 (.array items) (.arr ds)) = succeeds (tY1 (.array items2) (.arr ds))) := by
  constructor
  · cases hv : isArray v with
    | false =>
      rw [succeeds_tY1_not_array v _ hv]
      constructor
      · intro h; cases h
      · rintro ⟨items, rfl, _⟩
        simp [isArray] at hv
    | true =>
      obtain ⟨items, rfl⟩ := (isArray_iff v).mp hv
      rw [succeeds_tY1_tuple_iff items ds hlen]
      constructor
      · intro h; exact ⟨items, rfl, h⟩
      · rintro ⟨items2, heq, h⟩
        cases heq
        exact h
  · intro items items2 htake
    have key : ∀ a b : List (Option Value), a.take ds.length = b.take ds.length →
        succeeds (tY1 (.array a) (.arr ds)) = true →
        succeeds (tY1 (.array b) (.arr ds)) = true := by
      intro a b hab ha
      rw [succeeds_tY1_tuple_iff _ ds hlen] at ha ⊢
      intro i x t hx ht
      have h2 : i < ds.length := (List.getElem?_eq_some.mp ht).1
      have e1 : b[i]? = a[i]? := by
        have hb : (b.take ds.length)[i]? = b[i]? := by rw [List.getElem?_take, if_pos h2]
        have ha2 : (a.take ds.length)[i]? = a[i]? := by rw [List.getElem?_take, if_pos h2]
        rw [← hb, ← hab, ha2]
      rw [e1] at hx
      exact ha i x t hx ht
    cases h : succeeds (tY1 (.array items2) (.arr ds)) with
    | true => exact key items2 items htake.symm h
    | false =>
      cases h2 : succeeds (tY1 (.array items) (.arr ds)) with
      | false => rfl
      | true => rw [key items items2 htake h2] at h; cases h

/-- C5 amended, at `tY1([1, "hi", false], ["int", "str"])`, whose third
element has no descriptor. -/
theorem tY1_tuple_law_witness :
    1 < [Descriptor.tag "int", Descriptor.tag "str"].length ∧
    succeeds (tY1 (.array [some (.number (.finite false 1 0)), some (.string "hi"),
        some (.bool false)]) (.arr [.tag "int", .tag "str"]))
      = succeeds (tY1 (.array [some (.number (.finite false 1 0)), some (.string "hi"),
        some .null]) (.arr [.tag "int", .tag "str"])) :=
  ⟨by decide, (tY1_tuple_law .undefined [.tag "int", .tag "str"] (by decide)).2
    [some (.number (.finite false 1 0)), some (.string "hi"), some (.bool false)]
    [some (.number (.finite false 1 0)), some (.string "hi"), some .null] rfl⟩

/-- C6: the object law. `tY1(v, D)` succeeds iff `v` is not `null`, its tag is
`Object`, every key of `D` is in `v` and the value under each key matches the
key's descriptor; on success it returns `v` itself; and two plain objects that
agree on the keys `D` names get the same outcome, so the other keys of `v`
never affect the result. -/
theorem tY1_object_law (v : Value) (entries : List (String × Descriptor)) :
    (succeeds (tY1 v (.obj entries)) = true ↔
      isNull v = false ∧ getTag v = "Object" ∧
        ∀ k d, (k, d) ∈ entries → hasKey v k = true ∧ succeeds (tY1 (getKey v k) d) = true) ∧
    (succeeds (tY1 v (.obj entries)) = true → tY1 v (.obj entries) = .ok v) ∧
    (∀ props props2 : List (String × Value),
      (∀ k d, (k, d) ∈ entries → props.lookup k = props2.lookup k) →
      succeeds (tY1 (.object "Object" props) (.obj entries))
        = succeeds (tY1 (.object "Object" props2) (.obj entries)) ∧
      ∀ e, tY1 (.object "Object" props) (.obj entries) = .error e ↔
        tY1 (.object "Object" props2) (.obj entries) = .error e) := by
  refine ⟨?_, ?_, ?_⟩
  · rw [tY1_obj]
    by_cases hg : getTag v = "Object"
    · have hn : isNull v = false := by cases v <;> simp_all [getTag, isNull]
      rw [← succeeds_tY1Entries_iff]
      simp only [hg, hn, ne_eq, not_true_eq_false, Bool.false_eq_true, or_self, if_false,
        true_and]
      cases tY1Entries v entries <;> simp [succeeds]
    · simp [hg, succeeds]
  · intro h
    rw [tY1_obj] at h ⊢
    split_ifs at h ⊢ with hc
    · cases h
    · cases he : tY1Entries v entries with
      | error e => rw [he] at h; cases h
      | ok u => rfl
  · intro props props2 hagree
    have hcongr : tY1Entries (.object "Object" props) entries
        = tY1Entries (.object "Object" props2) entries := by
      apply tY1Entries_congr
      intro k d hkd
      simp [hasKey, getKey, hagree k d hkd]
    rw [tY1_obj, tY1_obj, hcongr]
    simp only [getTag, isNull, ne_eq, not_true_eq_false, Bool.false_eq_true, or_self, if_false]
    cases tY1Entries (.object "Object" props2) entries <;> simp [succeeds]

/-- C7: idempotence. When `tY1(v, d)` succeeds with result `r`, `tY1(r, d)`
succeeds too, with the same result `r`. -/
theorem tY1_idempotent (v : Value) (d : Descriptor) (r : Value) (h : tY1 v d = .ok r) :
    tY1 r d = .ok r := by
  have hr : r = v := tY1_ok_eq d v r h
  rw [hr]
  rw [hr] at h
  exact h

/-- C7, at `tY1({a: 1, b: "hi"}, {a: "int", b: "str"})`. -/
theorem tY1_idempotent_witness :
    tY1 (.object "Object" [("a", .number (.finite false 1 0)), ("b", .string "hi")])
        (.obj [("a", .tag "int"), ("b", .tag "str")])
      = .ok (.object "Object" [("a", .number (.finite false 1 0)), ("b", .string "hi")]) :=
  tY1_idempotent
    (.object "Object" [("a", .number (.finite false 1 0)), ("b", .string "hi")])
    (.obj [("a", .tag "int"), ("b", .tag "str")])
    (.object "Object" [("a", .number (.finite false 1 0)), ("b", .string "hi")]) rfl

/-- C8 as stated fails at the array `[ , ]` of length 1, whose only slot is a
hole, against `["str", "int"]`: index 0 is below `min(length v, length ds)`,
`v[0]` is `undefined` and `tY1(undefined, "str")` fails, and yet the match
succeeds. -/
theorem tY1_tuple_hole_counterexample :
    0 < min ([none] : List (Option Value)).length [Descriptor.tag "str", Descriptor.tag "int"].length ∧
    getIndex (.array [none]) 0 = .undefined ∧
    succeeds (tY1 (getIndex (.array [none]) 0) (.tag "str")) = false ∧
    succeeds (tY1 (.array [none]) (.arr [.tag "str", .tag "int"])) = true :=
  ⟨by decide, rfl, rfl, rfl⟩

/-- C8, amended: the tuple length-mismatch policy. For an array `v` and a
descriptor list `ds` of more than one descriptor, `tY1(v, ds)` succeeds iff
`tY1(v[i], ds[i])` succeeds for every `i < min(length v, length ds)` at which
`v` has an element, holes being skipped; `tY1([], ds)` succeeds; and a result
has the length of `v`, and at every index from `length ds` on the slot of
`v`. -/
theorem tY1_tuple_length_mismatch (items : List (Option Value)) (ds : List Descriptor)
    (hlen : 1 < ds.length) :
    (succeeds (tY1 (.array items) (.arr ds)) = true ↔
      ∀ (i : Nat), i < min items.length ds.length →
        ∀ (x : Value) (t : Descriptor), items[i]? = some (some x) → ds[i]? = some t →
          succeeds (tY1 x t) = true) ∧
    tY1 (.array []) (.arr ds) = .ok (.array []) ∧
    (∀ r, tY1 (.array items) (.arr ds) = .ok r →
      ∃ rs, r = .array rs ∧ rs.length = items.length ∧
        ∀ i : Nat, ds.length ≤ i → rs[i]? = items[i]?) := by
  refine ⟨?_, ?_, ?_⟩
  · rw [succeeds_tY1_tuple_iff items ds hlen]
    constructor
    · intro h i _ x t hx ht
      exact h i x t hx ht
    · intro h i x t hx ht
      have h1 : i < items.length := (List.getElem?_eq_some.mp hx).1
      have h2 : i < ds.length := (List.getElem?_eq_some.mp ht).1
      exact h i (Nat.lt_min.mpr ⟨h1, h2⟩) x t hx ht
  · match ds, hlen with
    | t0 :: t1 :: ts, _ => rw [tY1_array_many]; rfl
  · intro r hr
    have := tY1_ok_eq (.arr ds) (.array items) r hr
    exact ⟨items, this, rfl, fun _ _ => rfl⟩

/-- C8 amended, at `tY1([], ["int", "str"])`. -/
theorem tY1_tuple_length_mismatch_witness :
    1 < [Descriptor.tag "int", Descriptor.tag "str"].length ∧
    tY1 (.array []) (.arr [.tag "int", .tag "str"]) = .ok (.array []) :=
  ⟨by decide, (tY1_tuple_length_mismatch [] [.tag "int", .tag "str"] (by decide)).2.1⟩

/-- A `map` throws what its callback throws at the first index where the
callback throws. -/
theorem mapIdxM_first_error {β α : Type} (f : Nat → β → Result α) (xs : List β) :
    ∀ (i j : Nat) (x : β) (e : TypeAssertionError), xs[j]? = some x →
      f (i + j) x = .error e →
      (∀ (k : Nat) (y : β), k < j → xs[k]? = some y → succeeds (f (i + k) y) = true) →
      mapIdxM f i xs = .error e := by
  induction xs with
  | nil => intro i j x e hx; simp at hx
  | cons a rest ih =>
    intro i j x e hx hfail hbefore
    rw [mapIdxM_cons_error_iff]
    cases j with
    | zero =>
      simp at hx
      subst hx
      exact Or.inl hfail
    | succ j =>
      right
      constructor
      · exact hbefore 0 a (Nat.succ_pos j) (by simp)
      · apply ih (i + 1) j x e (by simpa using hx)
        · rwa [Nat.add_assoc, Nat.add_comm 1 j]
        · intro k y hk hy
          have := hbefore (k + 1) y (Nat.succ_lt_succ hk) (by simpa using hy)
          rwa [Nat.add_assoc, Nat.add_comm 1 k]

/-- C9: the registry is closed and `tYpeNicks()` enumerates it. `tY1(v, name)`
fails with a message beginning `Unknown assertion: <name>` iff `name` is not
among the names `tYpeNicks()` returns, the message then being the whole text
of line 101; for a name `tYpeNicks()` returns no unknown assertion is
reported. -/
theorem tY1_unknown_assertion_iff (name : String) (v : Value) :
    ((∃ rest, tY1 v (.tag name) = .error ⟨"Unknown assertion: " ++ name ++ rest⟩) ↔
      name ∉ tYpeNicks) ∧
    (name ∉ tYpeNicks → tY1 v (.tag name) = .error ⟨"Unknown assertion: " ++ name ++
      " (or, needs to be a string). Run tYpeNicks() for accepted tYpes."⟩) := by
  have hunreg : name ∉ tYpeNicks → tY1 v (.tag name) = .error ⟨unknownMsg name⟩ := by
    intro hn
    rw [tY1_tag]
    apply tY1Tag_unregistered
    rw [← lookup_nicks_isSome_iff] at hn
    cases h : nicks.lookup name with
    | none => rfl
    | some k => rw [h] at hn; simp at hn
  refine ⟨⟨?_, ?_⟩, hunreg⟩
  · rintro ⟨rest, hrest⟩ hmem
    rw [← lookup_nicks_isSome_iff] at hmem
    obtain ⟨kind, hkind⟩ := Option.isSome_iff_exists.mp hmem
    rw [tY1_tag] at hrest
    rcases tY1Tag_registered v name kind hkind with h | h
    · rw [h] at hrest; cases hrest
    · rw [h] at hrest
      injection hrest with hmsg
      injection hmsg with hmsg
      exact expectedMsg_ne_unknown kind v name rest hmsg
  · intro hn
    exact ⟨_, hunreg hn⟩

/-- C10: when `tY1` succeeds on every pair, `tY(pairs)` returns a list as long
as `pairs` whose `i`-th element is the result of `tY1` on pair `i`, in the
same order; otherwise it throws `In argument i: ` followed by the message of
`tY1` on pair `i`, for `i` the index of the first failing pair, and so returns
no list. -/
theorem tY_all_or_first_failure (pairs : List (Value × Descriptor)) :
    ((∀ p ∈ pairs, succeeds (tY1 p.1 p.2) = true) →
      ∃ rs, tY pairs = .ok rs ∧ rs.length = pairs.length ∧
        pairs.map (fun p => tY1 p.1 p.2) = rs.map Except.ok) ∧
    (∀ (i : Nat) (v : Value) (d : Descriptor) (e : TypeAssertionError),
      pairs[i]? = some (v, d) → tY1 v d = .error e →
      (∀ (j : Nat) (w : Value) (t : Descriptor), j < i → pairs[j]? = some (w, t) →
        succeeds (tY1 w t) = true) →
      tY pairs = .error ⟨"In argument " ++ toString i ++ ": " ++ e.message⟩) := by
  constructor
  · intro hall
    have hs : succeeds (tY pairs) = true := by
      unfold tY
      rw [succeeds_mapIdxM_iff]
      intro j p hp
      rw [succeeds_rethrow]
      exact hall p (List.getElem?_mem hp)
    obtain ⟨rs, hrs⟩ := (succeeds_iff _).mp hs
    refine ⟨rs, hrs, ?_⟩
    unfold tY at hrs
    obtain ⟨hlen, hat⟩ := (mapIdxM_ok_iff _ pairs 0 rs).mp hrs
    refine ⟨hlen, ?_⟩
    apply List.ext_getElem (by simp [hlen])
    intro j h1 h2
    simp only [List.length_map] at h1 h2
    simp only [List.getElem_map]
    have := hat j pairs[j] rs[j] (List.getElem?_eq_getElem h1) (List.getElem?_eq_getElem h2)
    rwa [rethrow_ok_iff] at this
  · intro i v d e hp hfail hbefore
    unfold tY
    apply mapIdxM_first_error _ pairs 0 i (v, d) _ hp
    · rw [rethrow_error_iff]
      exact ⟨e, hfail, by simp [inArgumentMsg]⟩
    · intro k y hk hy
      rw [succeeds_rethrow]
      exact hbefore k y.1 y.2 hk hy

/-- C10, at `tY([["x", "str"], [123, "int"]])`, which succeeds, and at
`tY([["x", "str"], [123.5, "int"]])`, whose second pair fails. -/
theorem tY_all_or_first_failure_witness :
    (∃ rs, tY [(.string "x", .tag "str"), (.number (.finite false 123 0), .tag "int")] = .ok rs ∧
      rs.length = 2 ∧
      [tY1 (.string "x") (.tag "str"), tY1 (.number (.finite false 123 0)) (.tag "int")]
        = rs.map Except.ok) ∧
    tY [(.string "x", .tag "str"), (.number (.finite false 247 (-1)), .tag "int")]
      = .error ⟨"In argument 1: Expected Integer, got Number"⟩ :=
  ⟨(tY_all_or_first_failure
      [(.string "x", .tag "str"), (.number (.finite false 123 0), .tag "int")]).1 (by
      intro p hp
      simp only [List.mem_cons, List.mem_singleton, List.not_mem_nil, or_false] at hp
      rcases hp with rfl | rfl <;> rfl),
   (tY_all_or_first_failure
      [(.string "x", .tag "str"), (.number (.finite false 247 (-1)), .tag "int")]).2
    1 (.number (.finite false 247 (-1))) (.tag "int") ⟨"Expected Integer, got Number"⟩
    rfl rfl (by
      intro j w t hj hp
      have hj0 : j = 0 := by omega
      subst hj0
      simp at hp
      obtain ⟨rfl, rfl⟩ := hp
      rfl)⟩

/-! ## The tuple loop as the source writes it -/

/-- The recursion `tY1Tuple` is the `value.map` of lines 66 to 73: `map` skips
the holes, and at index `j` the callback returns the element when
`j >= type.length` and otherwise matches it against `type[j]`, rethrowing
with the index. -/
theorem tY1Tuple_eq_map (types : List Descriptor) (items : List (Option Value)) :
    ∀ i : Nat, tY1Tuple (types.drop i) items i =
      mapIdxM (fun j slot => onElement (fun item =>
        match types[j]? with
        | none => .ok item
        | some t => rethrow (atIndexMsg j) (tY1 item t)) slot) i items := by
  induction items with
  | nil =>
    intro i
    cases h : types.drop i <;> simp [tY1Tuple, mapIdxM]
  | cons slot rest ih =>
    intro i
    cases h : types.drop i with
    | nil =>
      have hlen : types.length ≤ i := List.drop_eq_nil_iff.mp h
      have hnone : types[i]? = none := List.getElem?_eq_none hlen
      have hrest := ih (i + 1)
      rw [List.drop_eq_nil_iff.mpr (Nat.le_succ_of_le hlen)] at hrest
      simp only [tY1Tuple] at hrest ⊢
      cases slot with
      | none =>
        rw [mapIdxM_cons, ← hrest]
        rfl
      | some item =>
        rw [mapIdxM_cons, ← hrest]
        simp only [onElement, hnone]
    | cons t ts =>
      have hi : i < types.length := by
        by_contra hcon
        rw [List.drop_eq_nil_iff.mpr (Nat.le_of_not_lt hcon)] at h
        cases h
      have hdrop := List.drop_eq_getElem_cons hi
      rw [h] at hdrop
      injection hdrop with ht hts
      have hsome : types[i]? = some t := by rw [List.getElem?_eq_getElem hi, ht]
      cases slot with
      | none =>
        rw [tY1Tuple_cons_none, hts, ih (i + 1)]
        simp only [mapIdxM, onElement]
        generalize mapIdxM _ (i + 1) rest = m
        cases m <;> rfl
      | some item =>
        rw [tY1Tuple_cons_some, hts, ih (i + 1)]
        simp only [mapIdxM, onElement, hsome]
        cases rethrow (atIndexMsg i) (tY1 item t) with
        | error e => rfl
        | ok r =>
          simp only
          generalize mapIdxM _ (i + 1) rest = m
          cases m <;> rfl

/-- The tuple branch of `tY1` on an array, as the `value.map` of the source. -/
theorem tY1_tuple_eq_map (items : List (Option Value)) (types : List Descriptor)
    (hlen : 1 < types.length) :
    tY1 (.array items) (.arr types) =
      (mapIdxM (fun j slot => onElement (fun item =>
        match types[j]? with
        | none => .ok item
        | some t => rethrow (atIndexMsg j) (tY1 item t)) slot) 0 items).map Value.array := by
  match types, hlen with
  | t0 :: t1 :: ts, _ =>
    rw [tY1_array_many, ← tY1Tuple_eq_map (t0 :: t1 :: ts) items 0]
    rfl

/-! ## Lemmas for the wrappers -/

theorem mapIdxW_length {β α : Type} (f : Nat → β → α × List String) (xs : List β) :
    ∀ i : Nat, (mapIdxW f i xs).1.length = xs.length := by
  induction xs with
  | nil => intro i; rfl
  | cons x xs ih => intro i; simp [mapIdxW, ih]

/-- The `j`-th result of a non-throwing `map` is the callback's result on the
`j`-th element. -/
theorem mapIdxW_getElem? {β α : Type} (f : Nat → β → α × List String) (xs : List β) :
    ∀ (i j : Nat) (x : β), xs[j]? = some x → (mapIdxW f i xs).1[j]? = some (f (i + j) x).1 := by
  induction xs with
  | nil => intro i j x hx; simp at hx
  | cons a rest ih =>
    intro i j x hx
    cases j with
    | zero =>
      simp at hx
      subst hx
      simp [mapIdxW]
    | succ j =>
      simp at hx
      have := ih (i + 1) j x hx
      simp only [mapIdxW, List.getElem?_cons_succ]
      rwa [Nat.add_assoc, Nat.add_comm 1 j] at this

theorem pairArgsFrom_length (typeList : List Descriptor) (args : List Value) :
    ∀ i : Nat, (pairArgsFrom typeList i args).length = args.length := by
  induction args with
  | nil => intro i; rfl
  | cons a rest ih => intro i; simp [pairArgsFrom, ih]

theorem pairArgsFrom_getElem? (typeList : List Descriptor) (args : List Value) :
    ∀ (i j : Nat), (pairArgsFrom typeList i args)[j]? =
      (args[j]?).map (fun v => (v, typeAt typeList (i + j))) := by
  induction args with
  | nil => intro i j; simp [pairArgsFrom]
  | cons a rest ih =>
    intro i j
    cases j with
    | zero => simp [pairArgsFrom]
    | succ j =>
      simp only [pairArgsFrom, List.getElem?_cons_succ, ih (i + 1) j]
      rw [Nat.add_assoc, Nat.add_comm 1 j]

theorem pairArgsFrom_map_fst (typeList : List Descriptor) (args : List Value) :
    ∀ i : Nat, (pairArgsFrom typeList i args).map Prod.fst = args := by
  induction args with
  | nil => intro i; rfl
  | cons a rest ih => intro i; simp [pairArgsFrom, ih]

/-- The `i`-th pair is the `i`-th argument with the `i`-th descriptor. -/
theorem pairArgs_getElem? (args : List Value) (typeList : List Descriptor) (i : Nat) :
    (pairArgs args typeList)[i]? = (args[i]?).map (fun v => (v, typeAt typeList i)) := by
  unfold pairArgs
  rw [pairArgsFrom_getElem?, Nat.zero_add]

theorem typeAt_of_getElem? (typeList : List Descriptor) (i : Nat) (d : Descriptor)
    (h : typeList[i]? = some d) : typeAt typeList i = d := by
  unfold typeAt
  rw [List.getD_eq_getElem?_getD, h]
  rfl

theorem typeAt_past_end (typeList : List Descriptor) (i : Nat) (h : typeList.length ≤ i) :
    typeAt typeList i = .tag "undefined" := by
  unfold typeAt
  rw [List.getD_eq_getElem?_getD, List.getElem?_eq_none h]
  rfl

/-- A successful `tY` returns the values of its pairs. -/
theorem tY_ok_eq (pairs : List (Value × Descriptor)) (rs : List Value)
    (h : tY pairs = .ok rs) : rs = pairs.map Prod.fst := by
  unfold tY at h
  obtain ⟨hlen, hat⟩ := (mapIdxM_ok_iff _ pairs 0 rs).mp h
  apply List.ext_getElem (by simp [hlen])
  intro j h1 h2
  simp only [List.length_map] at h2
  simp only [List.getElem_map]
  have := hat j pairs[j] rs[j] (List.getElem?_eq_getElem h2) (List.getElem?_eq_getElem h1)
  rw [rethrow_ok_iff] at this
  exact tY1_ok_eq _ _ _ this

/-- The `i`-th slot of `tY_L`: the result of the match, or the value itself
when the match fails. -/
theorem tY_L_getElem? (pairs : List (Value × Descriptor)) (i : Nat) (v : Value)
    (d : Descriptor) (h : pairs[i]? = some (v, d)) :
    (tY_L pairs).1[i]? = some (match tY1 v d with | .ok r => r | .error _ => v) := by
  unfold tY_L
  rw [mapIdxW_getElem? _ pairs 0 i (v, d) h]
  cases tY1 v d <;> rfl

/-! ## The claims on the wrappers -/

/-- C11: `tY_L(pairs)` does not throw and returns a list as long as `pairs`,
whose `i`-th slot is the result of `tY1` on pair `i` when that match succeeds
and the unvalidated value of pair `i` when it fails, however many pairs
fail. -/
theorem tY_L_same_length (pairs : List (Value × Descriptor)) :
    (tY_L pairs).1.length = pairs.length ∧
    ∀ (i : Nat) (v : Value) (d : Descriptor), pairs[i]? = some (v, d) →
      (∀ r, tY1 v d = .ok r → (tY_L pairs).1[i]? = some r) ∧
      (succeeds (tY1 v d) = false → (tY_L pairs).1[i]? = some v) := by
  constructor
  · unfold tY_L
    exact mapIdxW_length _ pairs 0
  · intro i v d h
    have hslot := tY_L_getElem? pairs i v d h
    constructor
    · intro r hr
      rw [hslot, hr]
    · intro hfail
      obtain ⟨e, he⟩ := (succeeds_eq_false_iff _).mp hfail
      rw [hslot, he]

/-- C11, at `tY_L([["x", "str"], [123.5, "int"]])`, whose second pair fails. -/
theorem tY_L_same_length_witness :
    (tY_L [(.string "x", .tag "str"), (.number (.finite false 247 (-1)), .tag "int")]).1[1]?
      = some (.number (.finite false 247 (-1))) :=
  ((tY_L_same_length
      [(.string "x", .tag "str"), (.number (.finite false 247 (-1)), .tag "int")]).2
    1 (.number (.finite false 247 (-1))) (.tag "int") rfl).2 rfl

/-- C12: when the number of arguments differs from the number of descriptors,
the call of `tY_F(typeList, fn)` throws a `TypeAssertionError` with the
message `Expected N arguments, got M`, without a call of `fn` and without a
warning, whatever the descriptors, the arguments and `fn` are. -/
theorem tY_F_arity_mismatch (typeList : List Descriptor) (fn : JSFunction) (thisArg : Value)
    (args : List Value) (h : args.length ≠ typeList.length) :
    tY_F typeList fn thisArg args =
      ⟨.error (.typeAssertion ⟨"Expected " ++ toString typeList.length ++ " arguments, got "
        ++ toString args.length⟩), [], []⟩ := by
  unfold tY_F
  rw [if_pos h]
  rfl

/-- C12, at a wrapper of two descriptors called with one argument. -/
theorem tY_F_arity_mismatch_witness :
    tY_F [.tag "int", .tag "str"] ⟨"f", fun _ args => .ok (.array (args.map some))⟩ .undefined
        [.number (.finite false 2 0)] =
      ⟨.error (.typeAssertion ⟨"Expected 2 arguments, got 1"⟩), [], []⟩ :=
  tY_F_arity_mismatch [.tag "int", .tag "str"] ⟨"f", fun _ args => .ok (.array (args.map some))⟩ .undefined
    [.number (.finite false 2 0)] (by decide)

/-- C15: `tY1_L(v, d)` does not throw: it returns the result of `tY1(v, d)`,
without a warning, when that match succeeds, and when it fails it sends the
failure message to `console.warn` once and returns `v`. -/
theorem tY1_L_lenient (v : Value) (d : Descriptor) :
    (∀ r, tY1 v d = .ok r → tY1_L v d = (r, [])) ∧
    (∀ e, tY1 v d = .error e → tY1_L v d = (v, [e.message])) := by
  constructor
  · intro r hr
    unfold tY1_L
    rw [hr]
  · intro e he
    unfold tY1_L
    rw [he]

/-- C15, at `tY1_L("x", "int")`. -/
theorem tY1_L_lenient_witness :
    tY1_L (.string "x") (.tag "int") = (.string "x", ["Expected Integer, got String"]) :=
  (tY1_L_lenient (.string "x") (.tag "int")).2 ⟨"Expected Integer, got String"⟩ rfl

/-- When every pair matches, `tY` returns the values of the pairs. -/
theorem tY_ok_of_all (pairs : List (Value × Descriptor))
    (h : ∀ (i : Nat) (v : Value) (d : Descriptor), pairs[i]? = some (v, d) →
      succeeds (tY1 v d) = true) :
    tY pairs = .ok (pairs.map Prod.fst) := by
  have hs : succeeds (tY pairs) = true := by
    unfold tY
    rw [succeeds_mapIdxM_iff]
    intro j p hp
    rw [succeeds_rethrow]
    exact h j p.1 p.2 hp
  obtain ⟨rs, hrs⟩ := (succeeds_iff _).mp hs
  rw [hrs, tY_ok_eq pairs rs hrs]

/-- When pair `i` is the first that fails, `tY` throws its message behind the
prefix `In argument i: `. -/
theorem tY_error_of_first (pairs : List (Value × Descriptor)) (i : Nat) (v : Value)
    (d : Descriptor) (e : TypeAssertionError) (hp : pairs[i]? = some (v, d))
    (hfail : tY1 v d = .error e)
    (hbefore : ∀ (j : Nat) (w : Value) (t : Descriptor), j < i → pairs[j]? = some (w, t) →
      succeeds (tY1 w t) = true) :
    tY pairs = .error ⟨inArgumentMsg i e.message⟩ := by
  unfold tY
  apply mapIdxM_first_error _ pairs 0 i (v, d) _ hp
  · rw [rethrow_error_iff]
    exact ⟨e, hfail, by simp⟩
  · intro k y hk hy
    rw [succeeds_rethrow]
    exact hbefore k y.1 y.2 hk hy

/-- A pair of `pairArgs` at an index that has a descriptor. -/
theorem pairArgs_getElem?_some (args : List Value) (typeList : List Descriptor) (i : Nat)
    (w : Value) (t : Descriptor) (hlen : args.length = typeList.length)
    (h : (pairArgs args typeList)[i]? = some (w, t)) :
    args[i]? = some w ∧ typeList[i]? = some t := by
  rw [pairArgs_getElem?] at h
  cases ha : args[i]? with
  | none => rw [ha] at h; cases h
  | some a =>
    rw [ha] at h
    simp only [Option.map_some', Option.some.injEq, Prod.mk.injEq] at h
    obtain ⟨h1, h2⟩ := h
    have hi : i < typeList.length := by
      rw [← hlen]
      exact (List.getElem?_eq_some.mp ha).1
    refine ⟨by rw [h1], ?_⟩
    rw [List.getElem?_eq_getElem hi, ← h2, typeAt_of_getElem? typeList i _ (List.getElem?_eq_getElem hi)]

/-- C13: for as many arguments as descriptors, when every argument matches its
descriptor `tY_F(typeList, fn)` calls `fn` once, on the validated arguments,
and returns what `fn` returns; otherwise it does not call `fn` and throws a
`TypeAssertionError` whose message is `In tY_F(<fn.name or anonymous>): In
argument i: ` followed by the failure message of `tY1` on the first failing
argument `i`. -/
theorem tY_F_validates_then_calls (typeList : List Descriptor) (fn : JSFunction)
    (thisArg : Value) (args : List Value) (hlen : args.length = typeList.length) :
    ((∀ (i : Nat) (v : Value) (d : Descriptor), args[i]? = some v → typeList[i]? = some d →
        succeeds (tY1 v d) = true) →
      tY (pairArgs args typeList) = .ok args ∧
      (tY_F typeList fn thisArg args).calls = [(thisArg, args)] ∧
      ∀ r, fn.apply thisArg args = .ok r → (tY_F typeList fn thisArg args).result = .ok r) ∧
    (∀ (i : Nat) (v : Value) (d : Descriptor) (e : TypeAssertionError),
      args[i]? = some v → typeList[i]? = some d → tY1 v d = .error e →
      (∀ (j : Nat) (w : Value) (t : Descriptor), j < i → args[j]? = some w →
        typeList[j]? = some t → succeeds (tY1 w t) = true) →
      (tY_F typeList fn thisArg args).calls = [] ∧
      (tY_F typeList fn thisArg args).result = .error (.typeAssertion
        ⟨"In tY_F(" ++ (if fn.name = "" then "anonymous" else fn.name) ++ "): In argument "
          ++ toString i ++ ": " ++ e.message⟩)) := by
  have hne : ¬ args.length ≠ typeList.length := by simp [hlen]
  constructor
  · intro hall
    have hty : tY (pairArgs args typeList) = .ok args := by
      rw [tY_ok_of_all]
      · unfold pairArgs
        rw [pairArgsFrom_map_fst]
      · intro i v d hp
        obtain ⟨h1, h2⟩ := pairArgs_getElem?_some args typeList i v d hlen hp
        exact hall i v d h1 h2
    refine ⟨hty, ?_, ?_⟩
    · simp only [tY_F, if_neg hne, tYFBody, hty]
    · intro r hr
      simp only [tY_F, if_neg hne, tYFBody, hty, hr, tYFCatch]
  · intro i v d e hv hd hfail hbefore
    have hty : tY (pairArgs args typeList) = .error ⟨inArgumentMsg i e.message⟩ := by
      apply tY_error_of_first (pairArgs args typeList) i v d e _ hfail
      · intro j w t hj hp
        obtain ⟨h1, h2⟩ := pairArgs_getElem?_some args typeList j w t hlen hp
        exact hbefore j w t hj h1 h2
      · rw [pairArgs_getElem?, hv, typeAt_of_getElem? typeList i d hd]
        rfl
    constructor
    · simp only [tY_F, if_neg hne, tYFBody, hty]
    · simp only [tY_F, if_neg hne, tYFBody, hty, tYFCatch, inTYFMsg, fnLabel, inArgumentMsg]
      have hjoin : "): " ++ "In argument " = "): In argument " := by decide
      simp only [String.append_assoc]
      rw [← String.append_assoc "): " "In argument ", hjoin]

/-- C13, at the wrapper of `["int", "str"]` called with `("bad", "x")`. -/
theorem tY_F_validates_then_calls_witness :
    (tY_F [.tag "int", .tag "str"] ⟨"", fun _ args => .ok (.array (args.map some))⟩ .undefined
        [.string "bad", .string "x"]).calls = [] ∧
    (tY_F [.tag "int", .tag "str"] ⟨"", fun _ args => .ok (.array (args.map some))⟩ .undefined
        [.string "bad", .string "x"]).result = .error (.typeAssertion
      ⟨"In tY_F(anonymous): In argument 0: Expected Integer, got String"⟩) :=
  (tY_F_validates_then_calls [.tag "int", .tag "str"] ⟨"", fun _ args => .ok (.array (args.map some))⟩
      .undefined [.string "bad", .string "x"] rfl).2
    0 (.string "bad") (.tag "int") ⟨"Expected Integer, got String"⟩ rfl rfl rfl
    (fun j _ _ hj => absurd hj (Nat.not_lt_zero j))

/-- C20: when the arguments pass the arity check and the validation and `fn`
itself throws a `TypeAssertionError` with message `m`, the call of
`tY_F(typeList, fn)` throws a `TypeAssertionError` with the message
`In tY_F(<fn.name or anonymous>): ` followed by `m`; anything else `fn` throws
is thrown on as it is. -/
theorem tY_F_wraps_error_of_fn (typeList : List Descriptor) (fn : JSFunction)
    (thisArg : Value) (args checkedArgs : List Value)
    (hlen : args.length = typeList.length)
    (hvalid : tY (pairArgs args typeList) = .ok checkedArgs) :
    (tY_F typeList fn thisArg args).calls = [(thisArg, checkedArgs)] ∧
    (∀ m : String, fn.apply thisArg checkedArgs = .error (.typeAssertion ⟨m⟩) →
      (tY_F typeList fn thisArg args).result = .error (.typeAssertion
        ⟨"In tY_F(" ++ (if fn.name = "" then "anonymous" else fn.name) ++ "): " ++ m⟩)) ∧
    (∀ name message : String, fn.apply thisArg checkedArgs = .error (.other name message) →
      (tY_F typeList fn thisArg args).result = .error (.other name message)) := by
  have hne : ¬ args.length ≠ typeList.length := by simp [hlen]
  refine ⟨?_, ?_, ?_⟩
  · simp only [tY_F, if_neg hne, tYFBody, hvalid]
  · intro m hm
    simp only [tY_F, if_neg hne, tYFBody, hvalid, hm, tYFCatch, inTYFMsg, fnLabel]
  · intro name message hm
    simp only [tY_F, if_neg hne, tYFBody, hvalid, hm, tYFCatch]

/-- C20, at a function named `check` that throws a `TypeAssertionError`
saying `inner`. -/
theorem tY_F_wraps_error_of_fn_witness :
    (tY_F [.tag "int"] ⟨"check", fun _ _ => .error (.typeAssertion ⟨"inner"⟩)⟩ .undefined
        [.number (.finite false 2 0)]).result
      = .error (.typeAssertion ⟨"In tY_F(check): inner"⟩) :=
  (tY_F_wraps_error_of_fn [.tag "int"] ⟨"check", fun _ _ => .error (.typeAssertion ⟨"inner"⟩)⟩
      .undefined [.number (.finite false 2 0)] [.number (.finite false 2 0)] rfl rfl).2.1
    "inner" rfl

/-- The warnings of a non-throwing `map` are those of its callback, index by
index. -/
theorem mapIdxW_warnings {β α : Type} (f : Nat → β → α × List String) (xs : List β) :
    ∀ i : Nat, (mapIdxW f i xs).2 = (xs.enumFrom i).flatMap (fun p => (f p.1 p.2).2) := by
  induction xs with
  | nil => intro i; rfl
  | cons x xs ih =>
    intro i
    simp only [mapIdxW, List.enumFrom_cons, List.flatMap_cons, ih (i + 1)]

/-- The pairs of `pairArgs`, with their indices. -/
theorem enumFrom_pairArgsFrom (typeList : List Descriptor) (args : List Value) :
    ∀ i : Nat, (pairArgsFrom typeList i args).enumFrom i =
      (args.enumFrom i).map (fun p => (p.1, (p.2, typeAt typeList p.1))) := by
  induction args with
  | nil => intro i; rfl
  | cons a rest ih =>
    intro i
    simp only [pairArgsFrom, List.enumFrom_cons, List.map_cons, ih (i + 1)]

/-- The warnings of `tY_L` on the pairs of `pairArgs`: one for every argument
whose match fails, in the order of the arguments. -/
theorem tY_L_pairArgs_warnings (args : List Value) (typeList : List Descriptor) :
    (tY_L (pairArgs args typeList)).2 = args.enum.flatMap (fun p =>
      match tY1 p.2 (typeAt typeList p.1) with
      | .ok _ => []
      | .error e => [tYLMsg p.1 e.message]) := by
  unfold tY_L pairArgs List.enum
  rw [mapIdxW_warnings, enumFrom_pairArgsFrom]
  simp only [List.flatMap, List.map_map]
  congr 1
  apply List.map_congr_left
  intro p _
  simp only [Function.comp]
  cases tY1 p.2 (typeAt typeList p.1) <;> rfl

/-- The list `tY_L` returns holds the values of its pairs. -/
theorem tY_L_fst_eq (pairs : List (Value × Descriptor)) :
    (tY_L pairs).1 = pairs.map Prod.fst := by
  apply List.ext_getElem?
  intro i
  cases hp : pairs[i]? with
  | none =>
    have hlen : pairs.length ≤ i := List.getElem?_eq_none_iff.mp hp
    have h1 : (tY_L pairs).1[i]? = none :=
      List.getElem?_eq_none (by unfold tY_L; rw [mapIdxW_length]; exact hlen)
    have h2 : (pairs.map Prod.fst)[i]? = none :=
      List.getElem?_eq_none (by rw [List.length_map]; exact hlen)
    rw [h1, h2]
  | some p =>
    obtain ⟨v, d⟩ := p
    rw [tY_L_getElem? pairs i v d hp, List.getElem?_map, hp]
    cases h : tY1 v d with
    | error e => rfl
    | ok r => simp only [Option.map_some', tY1_ok_eq d v r h]

/-- C14 as stated fails at the wrapper of `["int"]` called with `(1, 2)`: `fn`
is called with both arguments, two values and not `min(2, 1)`, the second one
having been matched against the descriptor `undefined`. -/
theorem tY_F_L_extra_argument_counterexample :
    (tY_F_L [.tag "int"] ⟨"", fun _ args => .ok (.array (args.map some))⟩ .undefined
        [.number (.finite false 1 0), .number (.finite false 2 0)]).calls
      = [(.undefined, [.number (.finite false 1 0), .number (.finite false 2 0)])] ∧
    ([.number (.finite false 1 0), .number (.finite false 2 0)] : List Value).length
      ≠ min ([.number (.finite false 1 0), .number (.finite false 2 0)] : List Value).length
          ([.tag "int"] : List Descriptor).length ∧
    (tY_F_L [.tag "int"] ⟨"", fun _ args => .ok (.array (args.map some))⟩ .undefined
        [.number (.finite false 1 0), .number (.finite false 2 0)]).warnings
      = ["tY_L: In argument 1: Unknown assertion: undefined (or, needs to be a string). Run tYpeNicks() for accepted tYpes."] :=
  ⟨rfl, by decide, rfl⟩

/-- C14, amended: `tY_F_L(typeList, fn)` checks no arity and calls `fn` once,
on the list `tY_L` returns for the pairs `[args[i], typeList[i]]`, one pair
for every argument, and returns or throws what `fn` does. `fn` receives as
many values as there are arguments, each the validated argument or, on a
failed match, the argument itself, so the arguments themselves. The warnings
are one `tY_L: In argument i: ` message for every argument whose match fails,
in the order of the arguments; an argument past the end of `typeList` is
matched against `undefined`, which fails as an unknown assertion, and has
its warning. -/
theorem tY_F_L_calls_with_all_arguments (typeList : List Descriptor) (fn : JSFunction)
    (thisArg : Value) (args : List Value) :
    (∃ checked : List Value,
      (tY_F_L typeList fn thisArg args).calls = [(thisArg, checked)] ∧
      (tY_F_L typeList fn thisArg args).result = fn.apply thisArg checked ∧
      checked.length = args.length ∧
      checked = args ∧
      ∀ (i : Nat) (v : Value), args[i]? = some v →
        (∀ r, tY1 v (typeAt typeList i) = .ok r → checked[i]? = some r) ∧
        (succeeds (tY1 v (typeAt typeList i)) = false → checked[i]? = some v)) ∧
    (tY_F_L typeList fn thisArg args).warnings = args.enum.flatMap (fun p =>
      match tY1 p.2 (typeAt typeList p.1) with
      | .ok _ => []
      | .error e => ["tY_L: In argument " ++ toString p.1 ++ ": " ++ e.message]) ∧
    (∀ (i : Nat) (v : Value), args[i]? = some v → typeList.length ≤ i →
      tY1 v (typeAt typeList i) = .error ⟨"Unknown assertion: undefined (or, needs to be a string). Run tYpeNicks() for accepted tYpes."⟩ ∧
      ("tY_L: In argument " ++ toString i ++ ": Unknown assertion: undefined (or, needs to be a string). Run tYpeNicks() for accepted tYpes.")
        ∈ (tY_F_L typeList fn thisArg args).warnings) := by
  have hchecked : (tY_L (pairArgs args typeList)).1 = args := by
    rw [tY_L_fst_eq]
    unfold pairArgs
    exact pairArgsFrom_map_fst typeList args 0
  have hwarn : (tY_F_L typeList fn thisArg args).warnings = args.enum.flatMap (fun p =>
      match tY1 p.2 (typeAt typeList p.1) with
      | .ok _ => []
      | .error e => ["tY_L: In argument " ++ toString p.1 ++ ": " ++ e.message]) :=
    tY_L_pairArgs_warnings args typeList
  have hundef : ∀ (i : Nat) (v : Value), typeList.length ≤ i →
      tY1 v (typeAt typeList i) = .error ⟨"Unknown assertion: undefined (or, needs to be a string). Run tYpeNicks() for accepted tYpes."⟩ := by
    intro i v hi
    rw [typeAt_past_end typeList i hi, tY1_tag]
    rfl
  refine ⟨⟨(tY_L (pairArgs args typeList)).1, rfl, rfl, ?_, hchecked, ?_⟩, hwarn, ?_⟩
  · rw [hchecked]
  · intro i v hv
    have hp : (pairArgs args typeList)[i]? = some (v, typeAt typeList i) := by
      rw [pairArgs_getElem?, hv]
      rfl
    have hslot := tY_L_getElem? (pairArgs args typeList) i v (typeAt typeList i) hp
    constructor
    · intro r hr
      rw [hslot, hr]
    · intro hfail
      obtain ⟨e, he⟩ := (succeeds_eq_false_iff _).mp hfail
      rw [hslot, he]
  · intro i v hv hi
    refine ⟨hundef i v hi, ?_⟩
    rw [hwarn, List.mem_flatMap]
    refine ⟨(i, v), List.mk_mem_enum_iff_getElem?.mpr hv, ?_⟩
    simp only [hundef i v hi]
    have hjoin : ": " ++ "Unknown assertion: undefined (or, needs to be a string). Run tYpeNicks() for accepted tYpes."
        = ": Unknown assertion: undefined (or, needs to be a string). Run tYpeNicks() for accepted tYpes." := by
      decide
    apply List.mem_singleton.mpr
    rw [String.append_assoc _ ": " _, hjoin]

/-- C14 amended, at the wrapper of `["int", "str"]` called with
`("oops", 123)`: both matches fail, `fn` gets both arguments and there are
two warnings. -/
theorem tY_F_L_calls_with_all_arguments_witness :
    (tY_F_L [.tag "int", .tag "str"] ⟨"", fun _ args => .ok (.array (args.map some))⟩ .undefined
        [.string "oops", .number (.finite false 123 0)]).warnings
      = ["tY_L: In argument 0: Expected Integer, got String",
         "tY_L: In argument 1: Expected String, got Number"] :=
  ((tY_F_L_calls_with_all_arguments [.tag "int", .tag "str"]
      ⟨"", fun _ args => .ok (.array (args.map some))⟩ .undefined
      [.string "oops", .number (.finite false 123 0)]).2.1).trans rfl

/-- C16 as stated fails on the registry: `tYpeNicks()` returns the tag `math`,
which maps to the kind `Math`, and the specification does not list that
kind. -/
theorem nicks_math_counterexample :
    "math" ∈ tYpeNicks ∧ nicks.lookup "math" = some "Math" ∧ "Math" ∉ specKinds := by
  refine ⟨by decide, rfl, by decide⟩

theorem mem_of_lookup_eq_some {α : Type} (l : List (String × α)) (k : String) (a : α)
    (h : l.lookup k = some a) : (k, a) ∈ l := by
  induction l with
  | nil => simp at h
  | cons p rest ih =>
    obtain ⟨k2, a2⟩ := p
    by_cases hk : k = k2
    · subst hk
      simp [List.lookup] at h
      subst h
      simp
    · have hb : (k == k2) = false := by simpa using hk
      simp only [List.lookup, hb] at h
      exact List.mem_cons_of_mem _ (ih h)

theorem nicks_lookup_self : ∀ p ∈ nicks, nicks.lookup p.1 = some p.2 := by
  decide

theorem nicks_kinds_listed : ∀ k ∈ nicks.map Prod.snd, k ∈ specKinds ∨ k = "Math" := by
  decide

/-- C16, amended: every tag of the registry maps to a kind the specification
lists or to the kind Math; and each of the kinds String, Number, Integer,
Float, Boolean, BigInt, Symbol, Function, Array, Int8Array, Uint8Array,
Uint8ClampedArray, Int16Array, Int32Array, Uint32Array, Float32Array,
Float64Array, Object, RegExp, Date, Map, Set, WeakMap, WeakSet, Promise,
Error, ArrayBuffer, DataView and Math is the kind of a tag that `tYpeNicks()`
returns. -/
theorem nicks_kinds (kind : String) :
    ((∃ t, t ∈ tYpeNicks ∧ nicks.lookup t = some kind) → kind ∈ specKinds ∨ kind = "Math") ∧
    (kind ∈ ["String", "Number", "Integer", "Float", "Boolean", "BigInt", "Symbol", "Function",
        "Array", "Int8Array", "Uint8Array", "Uint8ClampedArray", "Int16Array", "Int32Array",
        "Uint32Array", "Float32Array", "Float64Array", "Object", "RegExp", "Date", "Map", "Set",
        "WeakMap", "WeakSet", "Promise", "Error", "ArrayBuffer", "DataView", "Math"] →
      ∃ t, t ∈ tYpeNicks ∧ nicks.lookup t = some kind) := by
  have hkinds : nicks.map Prod.snd =
      ["String", "Number", "Integer", "Float", "Boolean", "BigInt", "Symbol", "Function",
        "Array", "Int8Array", "Uint8Array", "Uint8ClampedArray", "Int16Array", "Int32Array",
        "Uint32Array", "Float32Array", "Float64Array", "Object", "RegExp", "Date", "Map", "Set",
        "WeakMap", "WeakSet", "Promise", "Error", "ArrayBuffer", "DataView", "Math"] := rfl
  constructor
  · rintro ⟨t, _, ht⟩
    exact nicks_kinds_listed kind
      (List.mem_map.mpr ⟨(t, kind), mem_of_lookup_eq_some nicks t kind ht, rfl⟩)
  · intro h
    rw [← hkinds] at h
    obtain ⟨p, hp, hpk⟩ := List.mem_map.mp h
    refine ⟨p.1, List.mem_map.mpr ⟨p, hp, rfl⟩, ?_⟩
    rw [nicks_lookup_self p hp, hpk]

/-- C16 amended, at the kind `Int16Array`, which has the tag `int16arr`. -/
theorem nicks_kinds_witness : ∃ t, t ∈ tYpeNicks ∧ nicks.lookup t = some "Int16Array" :=
  (nicks_kinds "Int16Array").2 (by decide)

/-! ## Lemmas on the first failure -/

/-- Among the indices where a callback fails there is a smallest one. -/
theorem exists_first_failure {β α : Type} (f : Nat → β → Result α) (xs : List β)
    (h : ∃ (j : Nat) (x : β), xs[j]? = some x ∧ succeeds (f j x) = false) :
    ∃ (j : Nat) (x : β) (e : TypeAssertionError), xs[j]? = some x ∧ f j x = .error e ∧
      ∀ (k : Nat) (y : β), k < j → xs[k]? = some y → succeeds (f k y) = true := by
  classical
  have h2 : ∃ j : Nat, ∃ x : β, xs[j]? = some x ∧ succeeds (f j x) = false := h
  obtain ⟨x, hx, hfail⟩ := Nat.find_spec h2
  obtain ⟨e, he⟩ := (succeeds_eq_false_iff _).mp hfail
  refine ⟨Nat.find h2, x, e, hx, he, ?_⟩
  intro k y hk hy
  have hmin := Nat.find_min h2 hk
  cases hs : succeeds (f k y) with
  | true => rfl
  | false => exact absurd ⟨y, hy, hs⟩ hmin

/-- The elements up to index `i` of a list, followed by anything, are at
every index up to `i` the elements of the list. -/
theorem getElem?_take_succ_append {β : Type} (xs later : List β) (i k : Nat) (hk : k ≤ i)
    (hi : i < xs.length) : (xs.take (i + 1) ++ later)[k]? = xs[k]? := by
  have hlen : k < (xs.take (i + 1)).length := by
    rw [List.length_take]
    omega
  rw [List.getElem?_append_left hlen, List.getElem?_take, if_pos (by omega)]

/-- The homogeneous branch throws the failure of the first failing element
behind `At index i: `, whatever follows that element. -/
theorem tY1_homogeneous_first_error (items : List (Option Value)) (d : Descriptor) (i : Nat)
    (x : Value) (e : TypeAssertionError) (hx : items[i]? = some (some x))
    (hfail : tY1 x d = .error e)
    (hbefore : ∀ (j : Nat) (y : Value), j < i → items[j]? = some (some y) →
      succeeds (tY1 y d) = true) :
    tY1 (.array items) (.arr [d]) = .error ⟨atIndexMsg i e.message⟩ := by
  rw [tY1_array_one]
  have : mapIdxM (fun i slot => onElement (fun item => rethrow (atIndexMsg i) (tY1 item d)) slot)
      0 items = .error ⟨atIndexMsg i e.message⟩ := by
    apply mapIdxM_first_error _ items 0 i (some x) _ hx
    · rw [onElement_some_error_iff, rethrow_error_iff]
      exact ⟨e, hfail, by simp⟩
    · intro k slot hk hslot
      cases slot with
      | none => rfl
      | some y =>
        rw [succeeds_onElement_some, succeeds_rethrow]
        exact hbefore k y hk hslot
  rw [this]
  rfl

/-- The tuple branch throws the failure of the first failing element behind
`At index i: `, whatever follows that element. -/
theorem tY1_tuple_first_error (items : List (Option Value)) (ds : List Descriptor)
    (hlen : 1 < ds.length) (i : Nat) (x : Value) (t : Descriptor) (e : TypeAssertionError)
    (hx : items[i]? = some (some x)) (ht : ds[i]? = some t) (hfail : tY1 x t = .error e)
    (hbefore : ∀ (j : Nat) (y : Value) (s : Descriptor), j < i → items[j]? = some (some y) →
      ds[j]? = some s → succeeds (tY1 y s) = true) :
    tY1 (.array items) (.arr ds) = .error ⟨atIndexMsg i e.message⟩ := by
  rw [tY1_tuple_eq_map items ds hlen]
  have : mapIdxM (fun j slot => onElement (fun item =>
      match ds[j]? with
      | none => (.ok item : Result Value)
      | some t => rethrow (atIndexMsg j) (tY1 item t)) slot) 0 items
      = .error ⟨atIndexMsg i e.message⟩ := by
    apply mapIdxM_first_error _ items 0 i (some x) _ hx
    · rw [onElement_some_error_iff]
      simp only [Nat.zero_add, ht]
      rw [rethrow_error_iff]
      exact ⟨e, hfail, rfl⟩
    · intro k slot hk hslot
      cases slot with
      | none => rfl
      | some y =>
        rw [succeeds_onElement_some]
        simp only [Nat.zero_add]
        cases hs : ds[k]? with
        | none => rfl
        | some s =>
          simp only
          rw [succeeds_rethrow]
          exact hbefore k y s hk hslot hs
  rw [this]
  rfl

/-- C17 as stated fails at `tY1([ , 5], ["str"])`, whose slot 0 is a hole:
`v[0]` is `undefined`, which fails `"str"`, so index 0 is the smallest index
whose element fails, and yet the failure reported is that of index 1. -/
theorem tY1_location_trail_hole_counterexample :
    getIndex (.array [none, some (.number (.finite false 5 0))]) 0 = .undefined ∧
    tY1 (getIndex (.array [none, some (.number (.finite false 5 0))]) 0) (.tag "str")
      = .error ⟨"Expected String, got Undefined"⟩ ∧
    tY1 (.array [none, some (.number (.finite false 5 0))]) (.arr [.tag "str"])
      = .error ⟨"At index 1: Expected String, got Number"⟩ :=
  ⟨rfl, rfl, rfl⟩

/-- C17, amended: the location trail for arrays. When some element of the
array `v` fails `d`, `tY1(v, [d])` fails with `At index i: ` followed by the
failure message of `tY1(v[i], d)`, for `i` the smallest index at which `v` has
an element that fails, holes being skipped, and whatever the slots after `i`
are; and the same holds for a descriptor list `ds` of more than one
descriptor, with `ds[i]` in place of `d`. -/
theorem tY1_array_location_trail (items : List (Option Value)) :
    (∀ d : Descriptor,
      (∃ (i : Nat) (x : Value), items[i]? = some (some x) ∧ succeeds (tY1 x d) = false) →
      ∃ (i : Nat) (x : Value) (e : TypeAssertionError),
        items[i]? = some (some x) ∧ tY1 x d = .error e ∧
        (∀ (j : Nat) (y : Value), j < i → items[j]? = some (some y) →
          succeeds (tY1 y d) = true) ∧
        tY1 (.array items) (.arr [d])
          = .error ⟨"At index " ++ toString i ++ ": " ++ e.message⟩ ∧
        ∀ later : List (Option Value),
          tY1 (.array (items.take (i + 1) ++ later)) (.arr [d])
            = .error ⟨"At index " ++ toString i ++ ": " ++ e.message⟩) ∧
    (∀ ds : List Descriptor, 1 < ds.length →
      (∃ (i : Nat) (x : Value) (t : Descriptor),
        items[i]? = some (some x) ∧ ds[i]? = some t ∧ succeeds (tY1 x t) = false) →
      ∃ (i : Nat) (x : Value) (t : Descriptor) (e : TypeAssertionError),
        items[i]? = some (some x) ∧ ds[i]? = some t ∧ tY1 x t = .error e ∧
        (∀ (j : Nat) (y : Value) (s : Descriptor), j < i → items[j]? = some (some y) →
          ds[j]? = some s → succeeds (tY1 y s) = true) ∧
        tY1 (.array items) (.arr ds)
          = .error ⟨"At index " ++ toString i ++ ": " ++ e.message⟩ ∧
        ∀ later : List (Option Value),
          tY1 (.array (items.take (i + 1) ++ later)) (.arr ds)
            = .error ⟨"At index " ++ toString i ++ ": " ++ e.message⟩) := by
  constructor
  · intro d hex
    have hex2 : ∃ (j : Nat) (slot : Option Value), items[j]? = some slot ∧
        succeeds (onElement (fun y => tY1 y d) slot) = false := by
      obtain ⟨i, x, hx, hfail⟩ := hex
      exact ⟨i, some x, hx, by rw [succeeds_onElement_some]; exact hfail⟩
    obtain ⟨i, slot, e, hslot, hfail, hbefore⟩ :=
      exists_first_failure (fun _ slot => onElement (fun y => tY1 y d) slot) items hex2
    have hi : i < items.length := (List.getElem?_eq_some.mp hslot).1
    cases slot with
    | none => simp only [onElement_none] at hfail; cases hfail
    | some x =>
      simp only [onElement_some_error_iff] at hfail
      have hbefore2 : ∀ (j : Nat) (y : Value), j < i → items[j]? = some (some y) →
          succeeds (tY1 y d) = true := by
        intro j y hj hy
        have := hbefore j (some y) hj hy
        rwa [succeeds_onElement_some] at this
      refine ⟨i, x, e, hslot, hfail, hbefore2, ?_, ?_⟩
      · exact tY1_homogeneous_first_error items d i x e hslot hfail hbefore2
      · intro later
        apply tY1_homogeneous_first_error _ d i x e
        · rw [getElem?_take_succ_append items later i i (Nat.le_refl i) hi, hslot]
        · exact hfail
        · intro j y hj hy
          rw [getElem?_take_succ_append items later i j (Nat.le_of_lt hj) hi] at hy
          exact hbefore2 j y hj hy
  · intro ds hlen hex
    have hex2 : ∃ (j : Nat) (slot : Option Value), items[j]? = some slot ∧
        succeeds (onElement (fun y => (match ds[j]? with
          | none => .ok y
          | some t => tY1 y t : Result Value)) slot) = false := by
      obtain ⟨i, x, t, hx, ht, hfail⟩ := hex
      refine ⟨i, some x, hx, ?_⟩
      rw [succeeds_onElement_some]
      simp only [ht]
      exact hfail
    obtain ⟨i, slot, e, hslot, hfail, hbefore⟩ :=
      exists_first_failure (fun j slot => onElement (fun y => (match ds[j]? with
        | none => .ok y
        | some t => tY1 y t : Result Value)) slot) items hex2
    have hi : i < items.length := (List.getElem?_eq_some.mp hslot).1
    cases slot with
    | none => simp only [onElement_none] at hfail; cases hfail
    | some x =>
      simp only [onElement_some_error_iff] at hfail
      cases ht : ds[i]? with
      | none => simp only [ht] at hfail; cases hfail
      | some t =>
        simp only [ht] at hfail
        have hbefore2 : ∀ (j : Nat) (y : Value) (s : Descriptor), j < i →
            items[j]? = some (some y) → ds[j]? = some s → succeeds (tY1 y s) = true := by
          intro j y s hj hy hs
          have := hbefore j (some y) hj hy
          rw [succeeds_onElement_some] at this
          simpa only [hs] using this
        refine ⟨i, x, t, e, hslot, ht, hfail, hbefore2, ?_, ?_⟩
        · exact tY1_tuple_first_error items ds hlen i x t e hslot ht hfail hbefore2
        · intro later
          apply tY1_tuple_first_error _ ds hlen i x t e _ ht hfail
          · intro j y s hj hy hs
            rw [getElem?_take_succ_append items later i j (Nat.le_of_lt hj) hi] at hy
            exact hbefore2 j y s hj hy hs
          · rw [getElem?_take_succ_append items later i i (Nat.le_refl i) hi, hslot]

/-- C17 amended, at `tY1([[1, "x"]], [["int"]])`: the outer index comes
first. -/
theorem tY1_array_location_trail_witness :
    tY1 (.array [some (.array [some (.number (.finite false 1 0)), some (.string "x")])])
        (.arr [.arr [.tag "int"]])
      = .error ⟨"At index 0: At index 1: Expected Integer, got String"⟩ ∧
    ∃ (i : Nat) (x : Value) (e : TypeAssertionError),
      [some (Value.array [some (.number (.finite false 1 0)), some (.string "x")])][i]?
        = some (some x) ∧
      tY1 x (.arr [.tag "int"]) = .error e ∧
      tY1 (.array [some (.array [some (.number (.finite false 1 0)), some (.string "x")])])
          (.arr [.arr [.tag "int"]])
        = .error ⟨"At index " ++ toString i ++ ": " ++ e.message⟩ := by
  refine ⟨rfl, ?_⟩
  obtain ⟨i, x, e, hx, hfail, _, hres, _⟩ :=
    (tY1_array_location_trail
        [some (.array [some (.number (.finite false 1 0)), some (.string "x")])]).1
      (.arr [.tag "int"])
      ⟨0, .array [some (.number (.finite false 1 0)), some (.string "x")], rfl, rfl⟩
  exact ⟨i, x, e, hx, hfail, hres⟩

/-- The loop over the entries passes over the entries that match. -/
theorem tY1Entries_append_of_ok (v : Value) (front rest : List (String × Descriptor))
    (h : ∀ p ∈ front, hasKey v p.1 = true ∧ succeeds (tY1 (getKey v p.1) p.2) = true) :
    tY1Entries v (front ++ rest) = tY1Entries v rest := by
  induction front with
  | nil => rfl
  | cons p front ih =>
    obtain ⟨k, d⟩ := p
    obtain ⟨hk, hs⟩ := h (k, d) (List.mem_cons_self _ _)
    obtain ⟨r, hr⟩ := (succeeds_iff _).mp hs
    rw [List.cons_append, tY1Entries_cons, hk, hr]
    simp only [Bool.true_eq_false, if_false, rethrow]
    exact ih (fun q hq => h q (List.mem_cons_of_mem _ hq))

/-- A failing loop over the entries has a first entry that fails. -/
theorem tY1Entries_exists_first (v : Value) (entries : List (String × Descriptor))
    (h : succeeds (tY1Entries v entries) = false) :
    ∃ (front : List (String × Descriptor)) (k : String) (d : Descriptor)
      (later : List (String × Descriptor)),
      entries = front ++ (k, d) :: later ∧
      (∀ p ∈ front, hasKey v p.1 = true ∧ succeeds (tY1 (getKey v p.1) p.2) = true) ∧
      (hasKey v k = false ∨
        (hasKey v k = true ∧ succeeds (tY1 (getKey v k) d) = false)) := by
  induction entries with
  | nil => simp [tY1Entries, succeeds] at h
  | cons p rest ih =>
    obtain ⟨k, d⟩ := p
    cases hk : hasKey v k with
    | false => exact ⟨[], k, d, rest, rfl, by simp, Or.inl hk⟩
    | true =>
      cases hs : succeeds (tY1 (getKey v k) d) with
      | false => exact ⟨[], k, d, rest, rfl, by simp, Or.inr ⟨hk, hs⟩⟩
      | true =>
        have hpass : tY1Entries v ((k, d) :: rest) = tY1Entries v rest :=
          tY1Entries_append_of_ok v [(k, d)] rest (by
            intro q hq
            simp only [List.mem_singleton] at hq
            subst hq
            exact ⟨hk, hs⟩)
        rw [hpass] at h
        obtain ⟨front, k2, d2, later, hdec, hfront, hfail⟩ := ih h
        refine ⟨(k, d) :: front, k2, d2, later, by rw [hdec]; rfl, ?_, hfail⟩
        intro q hq
        simp only [List.mem_cons] at hq
        rcases hq with rfl | hq
        · exact ⟨hk, hs⟩
        · exact hfront q hq

/-- On a plain object, the object branch returns the value or throws what the
loop over the entries throws. -/
theorem tY1_obj_plain (v : Value) (entries : List (String × Descriptor))
    (hv : getTag v = "Object") :
    tY1 v (.obj entries) =
      match tY1Entries v entries with
      | .error e => .error e
      | .ok _ => .ok v := by
  have hn : isNull v = false := by cases v <;> simp_all [getTag, isNull]
  rw [tY1_obj]
  simp [hv, hn]

/-- An object without an array-index key lists its entries in the order of
their creation. -/
theorem objectEntries_of_no_index {α : Type} (created : List (String × α))
    (h : ∀ p ∈ created, arrayIndex p.1 = none) : objectEntries created = created := by
  have hidx : indexedEntries created = [] := by
    induction created with
    | nil => rfl
    | cons p rest ih =>
      simp only [indexedEntries, h p (List.mem_cons_self _ _)]
      exact ih (fun q hq => h q (List.mem_cons_of_mem _ hq))
  have hfilter : created.filter (fun p => (arrayIndex p.1).isNone) = created := by
    apply List.filter_eq_self.mpr
    intro p hp
    rw [h p hp]
    rfl
  unfold objectEntries
  rw [hidx, hfilter]
  rfl

/-- C18 as stated fails at `tY1({}, {b: "int", 1: "str"})`: the first key of
the descriptor in insertion order is `b`, which the value lacks, and yet the
failure reported is that of the key `1`, which `Object.entries` puts first. -/
theorem tY1_object_integer_key_counterexample :
    objectEntries [("b", Descriptor.tag "int"), ("1", Descriptor.tag "str")]
      = [("1", Descriptor.tag "str"), ("b", Descriptor.tag "int")] ∧
    hasKey (.object "Object" []) "b" = false ∧
    tY1 (.object "Object" [])
        (.obj (objectEntries [("b", Descriptor.tag "int"), ("1", Descriptor.tag "str")]))
      = .error ⟨"Missing key '1' in object"⟩ :=
  ⟨rfl, rfl, rfl⟩

/-- C18, amended: an object descriptor is evaluated in the order of
`Object.entries(D)`, not in the order of the value's keys. On a plain object
`v`, when the entries before the key `k` all match and `k` is absent the
failure is `Missing key 'k' in object`, and when `v[k]` fails its descriptor
it is `In key 'k': ` followed by that failure message, whatever the later
entries are; a failing match has such a first failing key; and the order of
`Object.entries(D)` is the order of insertion when no key of `D` is an array
index. -/
theorem tY1_object_first_failure (v : Value) (entries : List (String × Descriptor))
    (hv : getTag v = "Object") :
    (∀ (front : List (String × Descriptor)) (k : String) (d : Descriptor)
      (later : List (String × Descriptor)),
      entries = front ++ (k, d) :: later →
      (∀ p ∈ front, hasKey v p.1 = true ∧ succeeds (tY1 (getKey v p.1) p.2) = true) →
      (hasKey v k = false →
        tY1 v (.obj entries) = .error ⟨"Missing key '" ++ k ++ "' in object"⟩) ∧
      (hasKey v k = true → ∀ e, tY1 (getKey v k) d = .error e →
        tY1 v (.obj entries) = .error ⟨"In key '" ++ k ++ "': " ++ e.message⟩)) ∧
    (succeeds (tY1 v (.obj entries)) = false →
      ∃ (front : List (String × Descriptor)) (k : String) (d : Descriptor)
        (later : List (String × Descriptor)),
        entries = front ++ (k, d) :: later ∧
        (∀ p ∈ front, hasKey v p.1 = true ∧ succeeds (tY1 (getKey v p.1) p.2) = true) ∧
        (hasKey v k = false ∨
          (hasKey v k = true ∧ succeeds (tY1 (getKey v k) d) = false))) ∧
    (∀ created : List (String × Descriptor), (∀ p ∈ created, arrayIndex p.1 = none) →
      objectEntries created = created) := by
  refine ⟨?_, ?_, fun created h => objectEntries_of_no_index created h⟩
  · intro front k d later hdec hfront
    rw [tY1_obj_plain v entries hv, hdec, tY1Entries_append_of_ok v front _ hfront,
      tY1Entries_cons]
    constructor
    · intro hk
      rw [hk]
      rfl
    · intro hk e he
      rw [hk, he]
      rfl
  · intro hfail
    apply tY1Entries_exists_first
    rw [tY1_obj_plain v entries hv] at hfail
    cases he : tY1Entries v entries with
    | error e => rfl
    | ok u => rw [he] at hfail; cases hfail

/-- C18 amended, at `tY1({b: 1, a: "x"}, {a: "int", b: "str"})`: the failure
is that of `a`, the first key of the descriptor. -/
theorem tY1_object_first_failure_witness :
    tY1 (.object "Object" [("b", .number (.finite false 1 0)), ("a", .string "x")])
        (.obj [("a", .tag "int"), ("b", .tag "str")])
      = .error ⟨"In key 'a': Expected Integer, got String"⟩ :=
  ((tY1_object_first_failure
      (.object "Object" [("b", .number (.finite false 1 0)), ("a", .string "x")])
      [("a", .tag "int"), ("b", .tag "str")] rfl).1
    [] "a" (.tag "int") [("b", .tag "str")] rfl (by simp)).2 rfl
    ⟨"Expected Integer, got String"⟩ rfl

/-- C19: an empty descriptor list rejects every value: `tY1(v, [])` fails with
`Expected Array, got <getTag(v)>` when `v` is not an array and with
`Empty type array: Provide at least one type` when it is one, the empty array
included. -/
theorem tY1_empty_descriptor_list (v : Value) :
    succeeds (tY1 v (.arr [])) = false ∧
    (isArray v = false → tY1 v (.arr []) = .error ⟨"Expected Array, got " ++ getTag v⟩) ∧
    (isArray v = true →
      tY1 v (.arr []) = .error ⟨"Empty type array: Provide at least one type"⟩) ∧
    tY1 (.array []) (.arr []) = .error ⟨"Empty type array: Provide at least one type"⟩ := by
  refine ⟨?_, ?_, ?_, rfl⟩
  · cases hv : isArray v with
    | false => exact succeeds_tY1_not_array v [] hv
    | true =>
      obtain ⟨items, rfl⟩ := (isArray_iff v).mp hv
      rw [tY1_array_nil]
      rfl
  · intro hv
    rw [tY1_not_array v [] hv]
    rfl
  · intro hv
    obtain ⟨items, rfl⟩ := (isArray_iff v).mp hv
    rw [tY1_array_nil]
    rfl

end TellMeY
